import Mathlib

/-!
Verification development for the Markdown ⇄ ADF (Atlassian Document Format)
converter in `internal/adf` (files `from_md.go`, `to_md.go`, `utils.go`).

Modelling conventions:
* Go strings are modelled as `List Char` (`Str`); Go byte/rune distinctions do
  not matter for the inputs under study (ASCII throughout).
* Go `map[string]any` node values are modelled by the inductive `AVal`;
  Go `int` and `float64` are kept as distinct constructors because Go type
  assertions (`v.(float64)`) distinguish them.  The float constructor carries
  an `Int` since every float appearing in this subsystem is integral.
* Go maps used here are built and read through string keys only; they are
  modelled as association lists in insertion order (`AList` semantics: the
  first binding of a key wins on lookup, assignment replaces in place).
* `crypto/rand`-based `GenerateLocalID` is modelled by an ambient id stream
  `gen : Nat → Str` together with a counter threaded through the parser.
* Go's `regexp` patterns are modelled by hand-written matchers implementing
  each concrete regular expression's leftmost-match semantics.
* The parser's loops are modelled with an explicit fuel parameter
  (`none` = out of fuel); this is essential because one of the source's
  loops genuinely fails to advance (see the C2 theorems), so no termination
  measure exists for the source code as written.
-/

namespace ADF

abbrev Str := List Char

/-- Go `unicode.IsSpace` restricted to ASCII (the only whitespace appearing
in this subsystem): space, tab, newline, vertical tab, form feed, carriage
return.  Used by `strings.TrimSpace` / `\s` character classes. -/
def isWS (c : Char) : Bool :=
  c = ' ' || c = '\t' || c = '\n' || Char.ofNat 11 = c || Char.ofNat 12 = c || c = Char.ofNat 13

/-- Space or tab, the cutset of `strings.TrimRight(line, " \t")`. -/
def isSpTab (c : Char) : Bool := c = ' ' || c = '\t'

def isDigitC (c : Char) : Bool := '0' ≤ c && c ≤ '9'

/-- Model of `\w` word characters. -/
def isWordC (c : Char) : Bool :=
  ('a' ≤ c && c ≤ 'z') || ('A' ≤ c && c ≤ 'Z') || isDigitC c || c = '_'

def isAsciiLetter (c : Char) : Bool :=
  ('a' ≤ c && c ≤ 'z') || ('A' ≤ c && c ≤ 'Z')

/-- Model of `strings.HasPrefix`. -/
def startsWith : Str → Str → Bool
  | [], _ => true
  | _ :: _, [] => false
  | p :: ps, c :: cs => p = c && startsWith ps cs

/-- Model of `strings.HasSuffix`. -/
def endsWith (suf s : Str) : Bool := startsWith suf.reverse s.reverse

/-- Model of `strings.TrimPrefix`. -/
def trimPrefixS (p s : Str) : Str := if startsWith p s then s.drop p.length else s

def trimLeftBy (f : Char → Bool) : Str → Str
  | [] => []
  | c :: cs => if f c then trimLeftBy f cs else c :: cs

def trimRightBy (f : Char → Bool) (s : Str) : Str :=
  (trimLeftBy f s.reverse).reverse

/-- Model of `strings.TrimSpace`. -/
def trimSpace (s : Str) : Str := trimRightBy isWS (trimLeftBy isWS s)

/-- Model of `strings.TrimLeft(line, " \t")`. -/
def trimLeftSpTab (s : Str) : Str := trimLeftBy isSpTab s

/-- Model of `strings.Trim(line, "|")`. -/
def trimPipes (s : Str) : Str :=
  trimRightBy (fun c => c = '|') (trimLeftBy (fun c => c = '|') s)

/-- Model of `strings.Split(s, sep)` for a one-character separator (the only kind used:
`"\n"`, `"|"`, `","`). Mirrors Go: always returns at least one piece. -/
def splitCh (sep : Char) : Str → List Str
  | [] => [[]]
  | c :: cs =>
    let rest := splitCh sep cs
    if c = sep then [] :: rest
    else match rest with
      | [] => [[c]]
      | r :: rs => (c :: r) :: rs

/-- Model of `strings.Join(parts, sep)` / `strings.Join(lines, "\n")` etc. -/
def joinSep (sep : Str) : List Str → Str
  | [] => []
  | [x] => x
  | x :: xs => x ++ sep ++ joinSep sep xs

/-- Model of `strings.SplitN(s, ":", n)` for a one-character separator. -/
def splitNCh (sep : Char) : Nat → Str → List Str
  | 0, _ => []
  | 1, s => [s]
  | n + 2, s =>
    match s.findIdx? (· = sep) with
    | none => [s]
    | some i => s.take i :: splitNCh sep (n + 1) (s.drop (i + 1))

/-- Model of `strings.Contains(s, sub)`. -/
def containsSub (sub : Str) : Str → Bool
  | [] => sub.isEmpty
  | c :: cs => startsWith sub (c :: cs) || containsSub sub cs

/-- Model of `strings.Repeat(s, n)`. -/
def repeatS (s : Str) : Nat → Str
  | 0 => []
  | n + 1 => s ++ repeatS s n

/-- Model of `strings.ReplaceAll(s, old, new)` for the uses in `renderTable`
(`"\n" → " "`, `"|" → "\\|"`); `old` is a single character there. -/
def replaceAllCh (old : Char) (new : Str) : Str → Str
  | [] => []
  | c :: cs => (if c = old then new else [c]) ++ replaceAllCh old new cs

/-- Decimal digits of a natural number. -/
def natDigits (n : Nat) : Str :=
  (Nat.toDigits 10 n)

/-- Go `fmt.Sprintf("%d", n)` for `Int`. -/
def intToStr (i : Int) : Str :=
  if i < 0 then '-' :: natDigits i.natAbs else natDigits i.natAbs

/-- Zero-padded decimal of given width (for `time.Format` fields). -/
def padNat (width n : Nat) : Str :=
  let d := natDigits n
  repeatS ['0'] (width - d.length) ++ d

/-- Parse an optional-sign decimal integer prefix, Go `fmt.Sscanf(s, "%d")`
style: an optional `+`/`-` followed by at least one digit; trailing garbage is
ignored (Sscanf stops at the first non-digit and reports success). -/
def scanGoInt (s : Str) : Option Int :=
  let core : Str → Option Nat := fun t =>
    let ds := t.takeWhile isDigitC
    if ds.isEmpty then none
    else some (ds.foldl (fun a c => a * 10 + (c.toNat - '0'.toNat)) 0)
  match s with
  | '-' :: t => (core t).map (fun n => -(n : Int))
  | '+' :: t => (core t).map (fun n => (n : Int))
  | t => (core t).map (fun n => (n : Int))

/-! ## The dynamic value model (`map[string]any` / `[]any` / scalars) -/

/-- A Go `any` value as used by the converter: strings, ints, float64s,
bools, `[]any` slices and `map[string]any` maps. -/
inductive AVal where
  | s (v : Str)
  | i (v : Int)
  | f (v : Int)
  | b (v : Bool)
  | arr (xs : List AVal)
  | obj (kvs : List (Str × AVal))

namespace AVal

/-- Key lookup in a modelled Go map (first binding wins). -/
def lookup (k : Str) : List (Str × AVal) → Option AVal
  | [] => none
  | (k', v) :: rest => if k' = k then some v else lookup k rest

/-- Model of `node["key"]` on a map value; `none` for non-maps or missing keys. -/
def getKey (a : AVal) (k : Str) : Option AVal :=
  match a with
  | .obj kvs => lookup k kvs
  | _ => none

/-- Go type assertion `v.(string)`. -/
def asStr : Option AVal → Option Str
  | some (.s v) => some v
  | _ => none

/-- Go type assertion `v.(float64)` (fails on Go ints). -/
def asFloat : Option AVal → Option Int
  | some (.f v) => some v
  | _ => none

/-- Go type assertion `v.([]any)`. -/
def asArr : Option AVal → Option (List AVal)
  | some (.arr xs) => some xs
  | _ => none

/-- Go type assertion `v.(map[string]any)`. -/
def asObj : Option AVal → Option (List (Str × AVal))
  | some (.obj kvs) => some kvs
  | _ => none

def isObj : AVal → Bool
  | .obj _ => true
  | _ => false

end AVal

/-! ## Regular-expression matchers

Each `regexp` pattern of the source is implemented as a deterministic
anchored matcher (`Pat`); every pattern used by the converter is free of
backtracking ambiguity (each greedy character-class run is followed by a
character excluded from the class), so a single greedy pass implements Go's
leftmost-first match semantics exactly.  `findFirst` adds the leftmost scan
(`FindStringIndex`/`FindStringSubmatch`), `reMatch` the fully anchored
`^...$` use, `rePrefix` the `^...` use. -/

/-- Result of an anchored match attempt: number of characters consumed and
the capture groups in group order (Go submatches `match[1..]`;
a non-participating group yields `""`, as in Go). -/
structure MRes where
  len : Nat
  caps : List Str

/-- An anchored matcher: try to match at the start of the input. -/
def Pat := Str → Option MRes

/-- Literal character. -/
def pch (c : Char) : Pat := fun s =>
  match s with
  | c' :: _ => if c' = c then some ⟨1, []⟩ else none
  | [] => none

/-- One character of a class (e.g. `[ xX]`, `\s`). -/
def pone (f : Char → Bool) : Pat := fun s =>
  match s with
  | c :: _ => if f c then some ⟨1, []⟩ else none
  | [] => none

/-- Literal string. -/
def pstr (lit : Str) : Pat := fun s =>
  if startsWith lit s then some ⟨lit.length, []⟩ else none

/-- Greedy `[class]+` (maximal run, at least one character). -/
def pcls1 (f : Char → Bool) : Pat := fun s =>
  let run := s.takeWhile f
  if run.isEmpty then none else some ⟨run.length, []⟩

/-- Greedy `[class]*` (maximal run, possibly empty). -/
def pcls0 (f : Char → Bool) : Pat := fun s =>
  some ⟨(s.takeWhile f).length, []⟩

/-- Model of `$` (end of input). -/
def pend : Pat := fun s =>
  match s with
  | [] => some ⟨0, []⟩
  | _ :: _ => none

/-- Capture group: record the text consumed by the inner pattern. -/
def pcap (p : Pat) : Pat := fun s =>
  (p s).map (fun r => ⟨r.len, s.take r.len :: r.caps⟩)

/-- Sequencing. -/
def pseq (a b : Pat) : Pat := fun s =>
  match a s with
  | none => none
  | some ra =>
    match b (s.drop ra.len) with
    | none => none
    | some rb => some ⟨ra.len + rb.len, ra.caps ++ rb.caps⟩

/-- Alternation `a|b` with `ga`/`gb` capture groups on the two sides;
the non-participating side contributes empty strings, as Go does. -/
def palt2 (a : Pat) (ga : Nat) (b : Pat) (gb : Nat) : Pat := fun s =>
  match a s with
  | some r => some ⟨r.len, r.caps ++ List.replicate gb []⟩
  | none =>
    match b s with
    | some r => some ⟨r.len, List.replicate ga [] ++ r.caps⟩
    | none => none

/-- Greedy optional `(?:...)?` containing `g` capture groups. -/
def popt (g : Nat) (p : Pat) : Pat := fun s =>
  match p s with
  | some r => some r
  | none => some ⟨0, List.replicate g []⟩

/-- Lazy `(.+?)` (dot excludes newline) followed by `stop`: consume the
minimal positive number of non-newline characters after which `stop`
matches; the consumed body is a capture group (placed before `stop`'s). -/
def lazyStep (stop : Pat) (orig : Str) : Str → Nat → Option MRes
  | t, k =>
    match stop t with
    | some r => some ⟨k + r.len, orig.take k :: r.caps⟩
    | none =>
      match t with
      | [] => none
      | c :: rest => if c = '\n' then none else lazyStep stop orig rest (k + 1)

def plazy1 (stop : Pat) : Pat := fun s =>
  match s with
  | [] => none
  | c :: rest => if c = '\n' then none else lazyStep stop s rest 1

/-- Model of `\s+` immediately followed by a lazy body (`\s+(.+?)...stop`): the
whitespace run is greedy but may yield characters back to the body, so try
the longest whitespace prefix first and shrink on failure (Go's
leftmost-first preference order). -/
def wsLazyGo (stop : Pat) (s : Str) : Nat → Option MRes
  | 0 => none
  | j + 1 =>
    match plazy1 stop (s.drop (j + 1)) with
    | some r => some ⟨j + 1 + r.len, r.caps⟩
    | none => wsLazyGo stop s j

def pwsLazy (stop : Pat) : Pat := fun s =>
  wsLazyGo stop s (s.takeWhile isWS).length

/-- Leftmost search (`FindStringIndex` + `FindStringSubmatch`): returns
(start, end, captures) of the leftmost match. -/
def findFirstGo (p : Pat) : Str → Nat → Option (Nat × Nat × List Str)
  | s, pos =>
    match p s with
    | some r => some (pos, pos + r.len, r.caps)
    | none =>
      match s with
      | [] => none
      | _ :: rest => findFirstGo p rest (pos + 1)

def findFirst (p : Pat) (s : Str) : Option (Nat × Nat × List Str) :=
  findFirstGo p s 0

/-- Go `re.FindAllStringSubmatch(s, -1)`: all non-overlapping leftmost
matches' captures. -/
def findAllGo (p : Pat) (s : Str) : List (List Str) :=
  match findFirst p s with
  | none => []
  | some (_, e, caps) =>
    if h : e = 0 ∨ s.isEmpty then [caps]
    else caps :: findAllGo p (s.drop e)
  termination_by s.length
  decreasing_by
    simp only [not_or, List.isEmpty_iff] at h
    have h2 : 0 < s.length := List.length_pos.mpr h.2
    have h3 : (s.drop e).length = s.length - e := List.length_drop e s
    omega

/-- Anchored `^...$` match returning the captures (`FindStringSubmatch` on a
fully anchored pattern, and `MatchString` via `Option.isSome`). -/
def reMatch (p : Pat) (s : Str) : Option (List Str) :=
  (p s).map (·.caps)

/-- The backtick character (0x60). -/
def bqChar : Char := Char.ofNat 96

/-! ### The concrete patterns of `utils.go` and `from_md.go` -/

/-- Model of `FenceBlockRe = ^~~~(\w+)(?:\s+(.*))?$`. -/
def FenceBlockRe : Pat :=
  pseq (pstr ('~' :: '~' :: '~' :: []))
    (pseq (pcap (pcls1 isWordC))
      (pseq (popt 1 (pseq (pcls1 isWS) (pcap (pcls0 (· ≠ '\n'))))) pend))

/-- Model of `FenceCloseRe = ^~~~\s*$`. -/
def FenceCloseRe : Pat :=
  pseq (pstr ('~' :: '~' :: '~' :: [])) (pseq (pcls0 isWS) pend)

/-- Model of `MetadataCommentRe = <!--\s*adf:(\w+)\s+(.+?)\s*-->` (unanchored). -/
def MetadataCommentRe : Pat :=
  pseq (pstr "<!--".data)
    (pseq (pcls0 isWS)
      (pseq (pstr "adf:".data)
        (pseq (pcap (pcls1 isWordC))
          (pwsLazy (pseq (pcls0 isWS) (pstr "-->".data))))))

/-- Model of `AttrPairRe = (\w+)=(?:"([^"]*)"|([^\s"]+))` (unanchored, find-all). -/
def AttrPairRe : Pat :=
  pseq (pcap (pcls1 isWordC))
    (pseq (pch '=')
      (palt2
        (pseq (pch '"') (pseq (pcap (pcls0 (· ≠ '"'))) (pch '"'))) 1
        (pcap (pcls1 (fun c => !isWS c && c ≠ '"'))) 1))

/-- Model of `ExtMentionRe = \{user:([^}]+)\}`. -/
def ExtMentionRe : Pat :=
  pseq (pstr "\x7buser:".data) (pseq (pcap (pcls1 (· ≠ '}'))) (pch '}'))

/-- Model of `ExtDateRe = \{date:([^}]+)\}`. -/
def ExtDateRe : Pat :=
  pseq (pstr "\x7bdate:".data) (pseq (pcap (pcls1 (· ≠ '}'))) (pch '}'))

/-- Model of `ExtStatusRe = \{status:([^|}]+)(?:\|([^}]+))?\}`. -/
def ExtStatusRe : Pat :=
  pseq (pstr "\x7bstatus:".data)
    (pseq (pcap (pcls1 (fun c => c ≠ '|' && c ≠ '}')))
      (pseq (popt 1 (pseq (pch '|') (pcap (pcls1 (· ≠ '}'))))) (pch '}')))

/-- Model of `ExtCardRe = \{card:([^}]+)\}`. -/
def ExtCardRe : Pat :=
  pseq (pstr "\x7bcard:".data) (pseq (pcap (pcls1 (· ≠ '}'))) (pch '}'))

/-- Model of `ExtColorRe = \{color:([^}]+)\}(.+?)\{color\}`. -/
def ExtColorRe : Pat :=
  pseq (pstr "\x7bcolor:".data)
    (pseq (pcap (pcls1 (· ≠ '}')))
      (pseq (pch '}') (plazy1 (pstr "\x7bcolor\x7d".data))))

/-- Model of `EmojiCodeRe = :([a-z0-9_+-]+):`. -/
def emojiCls (c : Char) : Bool :=
  ('a' ≤ c && c ≤ 'z') || isDigitC c || c = '_' || c = '+' || c = '-'

def EmojiCodeRe : Pat :=
  pseq (pch ':') (pseq (pcap (pcls1 emojiCls)) (pch ':'))

/-- Model of `TaskItemRe = ^(\s*)- \[([ xX])\]\s+(.*)$`. -/
def TaskItemRe : Pat :=
  pseq (pcap (pcls0 isWS))
    (pseq (pstr "- [".data)
      (pseq (pcap (pone (fun c => c = ' ' || c = 'x' || c = 'X')))
        (pseq (pch ']')
          (pseq (pcls1 isWS) (pseq (pcap (pcls0 (· ≠ '\n'))) pend)))))

/-- Legacy mention `@\[([^\]]+)\]\(accountId:([^)]+)\)`. -/
def LegacyMentionRe : Pat :=
  pseq (pstr "@[".data)
    (pseq (pcap (pcls1 (· ≠ ']')))
      (pseq (pstr "](accountId:".data)
        (pseq (pcap (pcls1 (· ≠ ')'))) (pch ')'))))

/-- Link `\[([^\]]+)\]\(([^)\s]+)(?:\s+"([^"]+)")?\)`. -/
def LinkRe : Pat :=
  pseq (pch '[')
    (pseq (pcap (pcls1 (· ≠ ']')))
      (pseq (pstr "](".data)
        (pseq (pcap (pcls1 (fun c => c ≠ ')' && !isWS c)))
          (pseq
            (popt 1 (pseq (pcls1 isWS)
              (pseq (pch '"') (pseq (pcap (pcls1 (· ≠ '"'))) (pch '"')))))
            (pch ')')))))

/-- Bold `\*\*([^*]+)\*\*|__([^_]+)__`. -/
def BoldRe : Pat :=
  palt2
    (pseq (pstr "**".data) (pseq (pcap (pcls1 (· ≠ '*'))) (pstr "**".data))) 1
    (pseq (pstr "__".data) (pseq (pcap (pcls1 (· ≠ '_'))) (pstr "__".data))) 1

/-- Italic `\*([^*]+)\*|_([^_]+)_`. -/
def ItalicRe : Pat :=
  palt2
    (pseq (pch '*') (pseq (pcap (pcls1 (· ≠ '*'))) (pch '*'))) 1
    (pseq (pch '_') (pseq (pcap (pcls1 (· ≠ '_'))) (pch '_'))) 1

/-- Strikethrough `~~([^~]+)~~`. -/
def StrikeRe : Pat :=
  pseq (pstr "~~".data) (pseq (pcap (pcls1 (· ≠ '~'))) (pstr "~~".data))

/-- Inline code: backtick, one or more non-backticks, backtick. -/
def CodeRe : Pat :=
  pseq (pch bqChar) (pseq (pcap (pcls1 (· ≠ bqChar))) (pch bqChar))

/-- Underline `<u>([^<]+)</u>`. -/
def UnderlineRe : Pat :=
  pseq (pstr "<u>".data) (pseq (pcap (pcls1 (· ≠ '<'))) (pstr "</u>".data))

/-- Subscript `<sub>([^<]+)</sub>`. -/
def SubRe : Pat :=
  pseq (pstr "<sub>".data) (pseq (pcap (pcls1 (· ≠ '<'))) (pstr "</sub>".data))

/-- Superscript `<sup>([^<]+)</sup>`. -/
def SupRe : Pat :=
  pseq (pstr "<sup>".data) (pseq (pcap (pcls1 (· ≠ '<'))) (pstr "</sup>".data))

/-- Ordered-list guard `^\d+\.\s` (a prefix match: `regexp.MatchString`). -/
def OrderedGuardRe : Pat :=
  pseq (pcls1 isDigitC) (pseq (pch '.') (pone isWS))

/-- Model of `^(\d+)\.\s+(.*)$` of `parseOrderedList`. -/
def OrderedItemRe : Pat :=
  pseq (pcap (pcls1 isDigitC))
    (pseq (pch '.') (pseq (pcls1 isWS) (pseq (pcap (pcls0 (· ≠ '\n'))) pend)))

/-- Standalone image `^!\[([^\]]*)\]\(([^)]+)\)$` (anchored). -/
def ImageLineRe : Pat :=
  pseq (pstr "![".data)
    (pseq (pcap (pcls0 (· ≠ ']')))
      (pseq (pstr "](".data)
        (pseq (pcap (pcls1 (· ≠ ')'))) (pseq (pch ')') pend))))

/-- Image `!\[([^\]]*)\]\(([^)]+)\)` (unanchored, media fence bodies). -/
def ImageRe : Pat :=
  pseq (pstr "![".data)
    (pseq (pcap (pcls0 (· ≠ ']')))
      (pseq (pstr "](".data)
        (pseq (pcap (pcls1 (· ≠ ')'))) (pch ')'))))

/-! ## String-keyed Go maps (`map[string]string`) -/

/-- Assignment `m[k] = v` on a modelled `map[string]string`. -/
def setStr (m : List (Str × Str)) (k v : Str) : List (Str × Str) :=
  match m with
  | [] => [(k, v)]
  | (k', v') :: rest => if k' = k then (k, v) :: rest else (k', v') :: setStr rest k v

/-- Read `m[k]` (zero value `""` when absent, as in Go). -/
def getStr (m : List (Str × Str)) (k : Str) : Str :=
  match m with
  | [] => []
  | (k', v) :: rest => if k' = k then v else getStr rest k

/-! ## Utility layer (`utils.go`) -/

/-- Model of `ParseAttrs`: space-separated `key="value"` / `key=value` pairs. -/
def ParseAttrs (attrStr : Str) : List (Str × Str) :=
  (findAllGo AttrPairRe attrStr).foldl
    (fun result m =>
      match m with
      | [k, quoted, unquoted] =>
        let value := if quoted.isEmpty then unquoted else quoted
        setStr result k value
      | _ => result) []

/-- Model of `FormatAttrsForFence(attrs, keys...)`. -/
def FormatAttrsForFence (attrs : List (Str × AVal)) (keys : List Str) : Str :=
  let parts := keys.foldl
    (fun parts key =>
      match AVal.lookup key attrs with
      | some (.s v) => if v.isEmpty then parts else parts ++ [key ++ '=' :: '"' :: v ++ ['"']]
      | some (.f v) => parts ++ [key ++ '=' :: '"' :: intToStr v ++ ['"']]
      | some (.i v) => parts ++ [key ++ '=' :: '"' :: intToStr v ++ ['"']]
      | some (.b v) => parts ++ [key ++ '=' :: '"' :: (if v then "true".data else "false".data) ++ ['"']]
      | _ => parts) []
  if parts.isEmpty then [] else ' ' :: joinSep [' '] parts

/-- Model of `IsAllDigits`. -/
def IsAllDigits (s : Str) : Bool :=
  s.all isDigitC && !s.isEmpty

/-- Model of `GetIndentLevel`: leading spaces (tab = 2 spaces), two spaces per level. -/
def getIndentGo : Str → Nat
  | [] => 0
  | c :: cs =>
    if c = ' ' then 1 + getIndentGo cs
    else if c = '\t' then 2 + getIndentGo cs
    else 0

def GetIndentLevel (line : Str) : Nat := getIndentGo line / 2

/-- Model of `SplitStatusAttrs`: parse `"color=blue,style=bold"`. -/
def SplitStatusAttrs (attrStr : Str) : List (Str × Str) :=
  if attrStr.isEmpty then []
  else
    (splitCh ',' attrStr).foldl
      (fun result pair =>
        match splitNCh '=' 2 pair with
        | [k, v] => setStr result (trimSpace k) (trimSpace v)
        | _ => result) []

/-! ### Timestamp conversion (UTC; the test suite fixes the local zone to UTC) -/

def isLeapYear (y : Int) : Bool :=
  y % 4 = 0 && (y % 100 ≠ 0 || y % 400 = 0)

def daysInMonth (y m : Int) : Int :=
  if m = 2 then (if isLeapYear y then 29 else 28)
  else if m = 4 || m = 6 || m = 9 || m = 11 then 30
  else 31

/-- Days since 1970-01-01 of a civil date (proleptic Gregorian). -/
def daysFromCivil (y m d : Int) : Int :=
  let y' := if m ≤ 2 then y - 1 else y
  let era := Int.fdiv y' 400
  let yoe := y' - era * 400
  let mp := if m > 2 then m - 3 else m + 9
  let doy := Int.fdiv (153 * mp + 2) 5 + d - 1
  let doe := yoe * 365 + Int.fdiv yoe 4 - Int.fdiv yoe 100 + doy
  era * 146097 + doe - 719468

/-- Civil date from days since 1970-01-01. -/
def civilFromDays (z : Int) : Int × Int × Int :=
  let z' := z + 719468
  let era := Int.fdiv z' 146097
  let doe := z' - era * 146097
  let yoe := Int.fdiv (doe - Int.fdiv doe 1460 + Int.fdiv doe 36524 - Int.fdiv doe 146096) 365
  let y := yoe + era * 400
  let doy := doe - (365 * yoe + Int.fdiv yoe 4 - Int.fdiv yoe 100)
  let mp := Int.fdiv (5 * doy + 2) 153
  let d := doy - Int.fdiv (153 * mp + 2) 5 + 1
  let m := mp + (if mp < 10 then 3 else -9)
  (if m ≤ 2 then y + 1 else y, m, d)

/-- Exactly `n` decimal digits, returning their value and the rest. -/
def takeDigits (n : Nat) (s : Str) : Option (Nat × Str) :=
  let ds := s.take n
  if ds.length = n && ds.all isDigitC then
    some (ds.foldl (fun a c => a * 10 + (c.toNat - '0'.toNat)) 0, s.drop n)
  else none

/-- Go `time.Parse("2006-01-02", input)` (in UTC): exactly `YYYY-MM-DD`
with range-checked month and day; yields Unix milliseconds at midnight. -/
def parseISODate (s : Str) : Option Int :=
  match takeDigits 4 s with
  | none => none
  | some (y, r1) =>
    match r1 with
    | '-' :: r2 =>
      match takeDigits 2 r2 with
      | none => none
      | some (m, r3) =>
        match r3 with
        | '-' :: r4 =>
          match takeDigits 2 r4 with
          | none => none
          | some (d, r5) =>
            if r5.isEmpty && 1 ≤ m && m ≤ 12 && 1 ≤ d && (d : Int) ≤ daysInMonth y m then
              some (daysFromCivil y m d * 86400000)
            else none
        | _ => none
    | _ => none

/-- Time-zone suffix of RFC 3339: `Z` or `±HH:MM`; returns the offset in
seconds and requires the end of input. -/
def parseZone (s : Str) : Option Int :=
  match s with
  | ['Z'] => some 0
  | c :: r =>
    if c = '+' || c = '-' then
      match takeDigits 2 r with
      | some (oh, ':' :: r2) =>
        match takeDigits 2 r2 with
        | some (om, []) =>
          let off := (oh : Int) * 3600 + (om : Int) * 60
          some (if c = '-' then -off else off)
        | _ => none
      | _ => none
    else none
  | _ => none

/-- Go `time.Parse(time.RFC3339, input)`: `YYYY-MM-DDTHH:MM:SS[.frac](Z|±HH:MM)`,
yielding Unix milliseconds (fractional seconds truncated to milliseconds,
as `Time.UnixMilli` does). -/
def parseRFC3339 (s : Str) : Option Int :=
  match takeDigits 4 s with
  | none => none
  | some (y, r1) =>
    match r1 with
    | '-' :: r2 =>
      match takeDigits 2 r2 with
      | none => none
      | some (m, r3) =>
        match r3 with
        | '-' :: r4 =>
          match takeDigits 2 r4 with
          | none => none
          | some (d, r5) =>
            match r5 with
            | 'T' :: r6 =>
              match takeDigits 2 r6 with
              | none => none
              | some (hh, r7) =>
                match r7 with
                | ':' :: r8 =>
                  match takeDigits 2 r8 with
                  | none => none
                  | some (mi, r9) =>
                    match r9 with
                    | ':' :: r10 =>
                      match takeDigits 2 r10 with
                      | none => none
                      | some (ss, r11) =>
                        let fracMs : Nat × Str :=
                          match r11 with
                          | '.' :: r12 =>
                            let ds := r12.takeWhile isDigitC
                            if ds.isEmpty then (0, r11)
                            else
                              (((ds ++ "000".data).take 3).foldl
                                (fun a c => a * 10 + (c.toNat - '0'.toNat)) 0,
                               r12.dropWhile isDigitC)
                          | _ => (0, r11)
                        match parseZone fracMs.2 with
                        | none => none
                        | some off =>
                          if 1 ≤ m && m ≤ 12 && 1 ≤ d && (d : Int) ≤ daysInMonth y m
                              && hh ≤ 23 && mi ≤ 59 && ss ≤ 59 then
                            some ((daysFromCivil y m d * 86400
                              + (hh : Int) * 3600 + (mi : Int) * 60 + (ss : Int) - off) * 1000
                              + (fracMs.1 : Int))
                          else none
                    | _ => none
                | _ => none
            | _ => none
        | _ => none
    | _ => none

/-- Model of `ParseTimestamp`: ISO date / RFC 3339 / millisecond input to ADF
timestamp (a millisecond string), with verbatim fallback. -/
def ParseTimestamp (input : Str) : Str :=
  let input := trimSpace input
  if input.length ≥ 10 && IsAllDigits input then input
  else
    match parseISODate input with
    | some ms => intToStr ms
    | none =>
      match parseRFC3339 input with
      | some ms => intToStr ms
      | none => input

/-- Model of `time.UnixMilli(ms).Format("2006-01-02")` in UTC. -/
def formatUnixMilliDate (ms : Int) : Str :=
  let days := Int.fdiv ms 86400000
  let ymd := civilFromDays days
  padNat 4 ymd.1.toNat ++ '-' :: padNat 2 ymd.2.1.toNat ++ '-' :: padNat 2 ymd.2.2.toNat

/-- Model of `FormatTimestamp`: millisecond string to ISO date, verbatim fallback. -/
def FormatTimestamp (timestamp : Str) : Str :=
  let timestamp := trimSpace timestamp
  match scanGoInt timestamp with
  | some ms => formatUnixMilliDate ms
  | none => timestamp

/-! ### Whitespace normalization -/

/-- Model of `regexp.MustCompile("\n{3,}").ReplaceAllString(text, "\n\n")`: collapse
each maximal run of three or more newlines to exactly two. -/
def collapseNL (s : Str) : Str :=
  match s with
  | [] => []
  | c :: cs =>
    if c = '\n' then
      let run := 1 + (cs.takeWhile (· = '\n')).length
      let rest := cs.dropWhile (· = '\n')
      (if run ≥ 3 then '\n' :: '\n' :: [] else repeatS ['\n'] run) ++ collapseNL rest
    else c :: collapseNL cs
  termination_by s.length
  decreasing_by
    · have hsub : List.Sublist (List.dropWhile (· = '\n') cs) cs := by
        first
          | exact List.dropWhile_sublist _
          | exact List.dropWhile_sublist
      have := hsub.length_le
      simp only [List.length_cons]
      omega
    · simp

/-- Model of `NormalizeWhitespace`. -/
def NormalizeWhitespace (text : Str) : Str :=
  let text := collapseNL text
  let lines := splitCh '\n' text
  let lines := lines.map (trimRightBy isSpTab)
  trimSpace (joinSep ['\n'] lines)

/-! ## Renderer (`to_md.go`) — leaf nodes -/

open AVal

/-- Model of `v, _ := m["k"].(string)` (zero value on failure). -/
def getS (a : AVal) (k : Str) : Str := (asStr (getKey a k)).getD []

/-- Mark flags accumulated by `applyMarks`' first pass. -/
structure MarkFlags where
  hasCode : Bool := false
  hasLink : Bool := false
  hasEm : Bool := false
  hasStrong : Bool := false
  hasStrike : Bool := false
  hasUnderline : Bool := false
  hasSubsup : Bool := false
  linkHref : Str := []
  linkTitle : Str := []
  textColor : Str := []
  bgColor : Str := []
  subType : Str := []

/-- One step of `applyMarks`' mark scan (the `switch markType` body). -/
def markStep (fl : MarkFlags) (mark : AVal) : MarkFlags :=
  match mark with
  | .obj kvs =>
    let markType := (asStr (lookup "type".data kvs)).getD []
    let attrs := (asObj (lookup "attrs".data kvs)).getD []
    if markType = "code".data then { fl with hasCode := true }
    else if markType = "link".data then
      { fl with hasLink := true,
                linkHref := (asStr (lookup "href".data attrs)).getD [],
                linkTitle := (asStr (lookup "title".data attrs)).getD [] }
    else if markType = "em".data then { fl with hasEm := true }
    else if markType = "strong".data then { fl with hasStrong := true }
    else if markType = "strike".data then { fl with hasStrike := true }
    else if markType = "underline".data then { fl with hasUnderline := true }
    else if markType = "textColor".data then
      { fl with textColor := (asStr (lookup "color".data attrs)).getD [] }
    else if markType = "backgroundColor".data then
      { fl with bgColor := (asStr (lookup "color".data attrs)).getD [] }
    else if markType = "subsup".data then
      { fl with hasSubsup := true, subType := (asStr (lookup "type".data attrs)).getD [] }
    else fl
  | _ => fl

/-- Model of `applyMarks(text, marks)`: fixed innermost-to-outermost composition
code → link → em → strong → strike → underline → textColor →
backgroundColor → subsup, independent of the order of `marks`. -/
def applyMarks (text : Str) (marks : List AVal) : Str :=
  let fl := marks.foldl markStep {}
  let r := text
  let r := if fl.hasCode then bqChar :: r ++ [bqChar] else r
  let r := if fl.hasLink then
      (if !fl.linkTitle.isEmpty then
        '[' :: r ++ "](".data ++ fl.linkHref ++ " \"".data ++ fl.linkTitle ++ "\")".data
      else '[' :: r ++ "](".data ++ fl.linkHref ++ [')'])
    else r
  let r := if fl.hasEm then '*' :: r ++ ['*'] else r
  let r := if fl.hasStrong then "**".data ++ r ++ "**".data else r
  let r := if fl.hasStrike then "~~".data ++ r ++ "~~".data else r
  let r := if fl.hasUnderline then "<u>".data ++ r ++ "</u>".data else r
  let r := if !fl.textColor.isEmpty then
      "\x7bcolor:".data ++ fl.textColor ++ ['}'] ++ r ++ "\x7bcolor\x7d".data
    else r
  let r := if !fl.bgColor.isEmpty then
      "<mark style=\"background:".data ++ fl.bgColor ++ "\">".data ++ r ++ "</mark>".data
    else r
  let r := if fl.hasSubsup then
      (if fl.subType = "sub".data then "<sub>".data ++ r ++ "</sub>".data
       else if fl.subType = "sup".data then "<sup>".data ++ r ++ "</sup>".data
       else r)
    else r
  r

/-- Model of `renderText`. -/
def renderText (node : AVal) : Str :=
  let text := getS node "text".data
  if text.isEmpty then []
  else
    match asArr (getKey node "marks".data) with
    | some marks => if marks.isEmpty then text else applyMarks text marks
    | none => text

/-- Model of `renderMedia`. -/
def renderMedia (node : AVal) : Str :=
  match asObj (getKey node "attrs".data) with
  | none => "[attachment]".data
  | some attrs =>
    let id := (asStr (lookup "id".data attrs)).getD []
    let collection := (asStr (lookup "collection".data attrs)).getD []
    let mediaType := (asStr (lookup "type".data attrs)).getD []
    let alt0 := (asStr (lookup "alt".data attrs)).getD []
    let alt := if alt0.isEmpty then "attachment".data else alt0
    if !id.isEmpty then
      "![".data ++ alt ++ "](jira-media:".data ++ id ++ ':' :: collection ++ ':' :: mediaType ++ [')']
    else '[' :: alt ++ [']']

/-- Model of `renderEmoji`. -/
def renderEmoji (node : AVal) : Str :=
  match asObj (getKey node "attrs".data) with
  | none => []
  | some attrs =>
    match asStr (lookup "shortName".data attrs) with
    | some shortName =>
      if !shortName.isEmpty then
        if startsWith [':'] shortName && endsWith [':'] shortName then shortName
        else ':' :: shortName ++ [':']
      else
        match asStr (lookup "text".data attrs) with
        | some text => if !text.isEmpty then text else []
        | none => []
    | none =>
      match asStr (lookup "text".data attrs) with
      | some text => if !text.isEmpty then text else []
      | none => []

/-- Model of `renderMention`. -/
def renderMention (node : AVal) : Str :=
  match asObj (getKey node "attrs".data) with
  | none => "@unknown".data
  | some attrs =>
    let id := (asStr (lookup "id".data attrs)).getD []
    let text := (asStr (lookup "text".data attrs)).getD []
    let displayName0 := trimPrefixS ['@'] text
    let displayName := if displayName0.isEmpty then id else displayName0
    if !id.isEmpty then
      "@[".data ++ displayName ++ "](accountId:".data ++ id ++ [')']
    else if !text.isEmpty then text
    else "@unknown".data

/-- Model of `renderStatus`. -/
def renderStatus (node : AVal) : Str :=
  match asObj (getKey node "attrs".data) with
  | none => []
  | some attrs =>
    let text := (asStr (lookup "text".data attrs)).getD []
    let color := (asStr (lookup "color".data attrs)).getD []
    if text.isEmpty then []
    else if !color.isEmpty then
      "\x7bstatus:".data ++ text ++ "|color=".data ++ color ++ ['}']
    else "\x7bstatus:".data ++ text ++ ['}']

/-- Model of `renderDate`. -/
def renderDate (node : AVal) : Str :=
  match asObj (getKey node "attrs".data) with
  | none => []
  | some attrs =>
    let timestamp := (asStr (lookup "timestamp".data attrs)).getD []
    if timestamp.isEmpty then []
    else "\x7bdate:".data ++ FormatTimestamp timestamp ++ ['}']

/-- Model of `renderInlineCard`. -/
def renderInlineCard (node : AVal) : Str :=
  match asObj (getKey node "attrs".data) with
  | none => []
  | some attrs =>
    match asStr (lookup "url".data attrs) with
    | some url => "\x7bcard:".data ++ url ++ ['}']
    | none => []

/-! ### Size lemmas for the renderer's recursion -/

theorem sizeOf_lookup {k : Str} :
    ∀ {kvs : List (Str × AVal)} {v : AVal}, AVal.lookup k kvs = some v → sizeOf v < sizeOf kvs := by
  intro kvs
  induction kvs with
  | nil => intro v h; simp [AVal.lookup] at h
  | cons kv rest ih =>
    intro v h
    obtain ⟨k', v'⟩ := kv
    simp only [AVal.lookup] at h
    by_cases hk : k' = k
    · rw [if_pos hk] at h
      cases h
      simp only [List.cons.sizeOf_spec, Prod.mk.sizeOf_spec]
      omega
    · rw [if_neg hk] at h
      have := ih h
      simp only [List.cons.sizeOf_spec, Prod.mk.sizeOf_spec]
      omega

theorem sizeOf_getKey {a : AVal} {k : Str} {v : AVal} (h : AVal.getKey a k = some v) :
    sizeOf v < sizeOf a := by
  cases a <;> simp [AVal.getKey] at h
  case obj kvs =>
    have := sizeOf_lookup h
    simp only [AVal.obj.sizeOf_spec]
    omega

theorem sizeOf_getArr {a : AVal} {k : Str} {xs : List AVal}
    (h : AVal.asArr (AVal.getKey a k) = some xs) : sizeOf xs < sizeOf a := by
  have h2 : AVal.getKey a k = some (AVal.arr xs) := by
    cases hg : AVal.getKey a k <;> rw [hg] at h
    · simp [AVal.asArr] at h
    · case some v => cases v <;> simp_all [AVal.asArr]
  have := sizeOf_getKey h2
  simp only [AVal.arr.sizeOf_spec] at this
  omega

theorem sizeOf_mem {x : AVal} {xs : List AVal} (h : x ∈ xs) : sizeOf x < sizeOf xs :=
  List.sizeOf_lt_of_mem h

/-! ### Table assembly (the non-recursive tail of `renderTable`) -/

/-- The row-printing loop of `renderTable` (pad to `colCount`, print a
pipe-delimited line, and a `---` separator line after each header row). -/
def tableSB (colCount : Nat) : List (List Str) → List Bool → Str
  | [], _ => []
  | row :: rows, flags =>
    let row := row ++ List.replicate (colCount - row.length) []
    let line := "| ".data ++ joinSep " | ".data row ++ " |\n".data
    let sep :=
      if flags.head?.getD false then
        "| ".data ++ joinSep " | ".data (List.replicate colCount "---".data) ++ " |\n".data
      else []
    line ++ sep ++ tableSB colCount rows flags.tail

/-- The assembly tail of `renderTable` on the extracted `(cells, hasHeader)`
rows: print all rows, then, when the first row was not a header row, re-insert
a separator right after the first printed line. -/
def renderTableAssemble (pairs : List (List Str × Bool)) : Str :=
  let rows := pairs.map Prod.fst
  let flags := pairs.map Prod.snd
  if rows.isEmpty then []
  else
    let colCount := rows.foldl (fun m r => Nat.max m r.length) 0
    let sb := tableSB colCount rows flags
    let sb :=
      if flags.head?.getD true = false then
        match splitCh '\n' (trimRightBy (· = '\n') sb) with
        | [] => sb
        | l0 :: rest =>
          let separator := "| ".data ++ joinSep " | ".data (List.replicate colCount "---".data) ++ " |".data
          l0 ++ '\n' :: separator ++ '\n' :: (rest.foldl (fun acc l => acc ++ l ++ ['\n']) [])
      else sb
    trimRightBy (· = '\n') sb

/-! ### The recursive renderer -/

mutual

/-- Model of `renderADFNode`: dispatch on `node["type"]`. -/
def renderADFNode (node : AVal) (depth : Nat) : Str :=
  let nodeType := getS node "type".data
  if nodeType = "paragraph".data then renderParagraph node
  else if nodeType = "text".data then renderText node
  else if nodeType = "hardBreak".data then "  \n".data
  else if nodeType = "heading".data then renderHeading node
  else if nodeType = "bulletList".data then renderBulletList node depth
  else if nodeType = "orderedList".data then renderOrderedList node depth
  else if nodeType = "taskList".data then renderTaskList node depth
  else if nodeType = "listItem".data then renderListItemContent node depth
  else if nodeType = "taskItem".data then renderTaskItem node depth
  else if nodeType = "codeBlock".data then renderCodeBlock node
  else if nodeType = "blockquote".data then renderBlockquote node
  else if nodeType = "rule".data then "---".data
  else if nodeType = "panel".data then renderPanel node
  else if nodeType = "expand".data || nodeType = "nestedExpand".data then renderExpand node
  else if nodeType = "table".data then renderTable node
  else if nodeType = "mediaSingle".data then renderMediaSingle node
  else if nodeType = "mediaGroup".data then renderMediaGroup node
  else if nodeType = "media".data then renderMedia node
  else if nodeType = "emoji".data then renderEmoji node
  else if nodeType = "mention".data then renderMention node
  else if nodeType = "status".data then renderStatus node
  else if nodeType = "date".data then renderDate node
  else if nodeType = "inlineCard".data then renderInlineCard node
  else renderContent node
termination_by (sizeOf node, 5)
decreasing_by
all_goals simp_wf
all_goals first
  | (apply Prod.Lex.right; omega)
  | (apply Prod.Lex.left
     first
       | omega
       | (simp only [List.cons.sizeOf_spec, AVal.obj.sizeOf_spec]; omega)
       | (have h3 := sizeOf_getArr h
          simp only [AVal.obj.sizeOf_spec] at h3 ⊢
          omega))

/-- Model of `renderParagraph`. -/
def renderParagraph (node : AVal) : Str :=
  let text := renderContent node
  match asObj (getKey node "attrs".data) with
  | some attrs =>
    if attrs.length > 0 then
      let attrStr := FormatAttrsForFence attrs ["textAlign".data]
      if !attrStr.isEmpty then "<!-- adf:paragraph".data ++ attrStr ++ " -->\n".data ++ text
      else text
    else text
  | none => text
termination_by (sizeOf node, 4)
decreasing_by
all_goals simp_wf
all_goals first
  | (apply Prod.Lex.right; omega)
  | (apply Prod.Lex.left
     first
       | omega
       | (simp only [List.cons.sizeOf_spec, AVal.obj.sizeOf_spec]; omega)
       | (have h3 := sizeOf_getArr h
          simp only [AVal.obj.sizeOf_spec] at h3 ⊢
          omega))

/-- Model of `renderHeading` (note: the level is read with a `float64` assertion and
clamped into [1,6] here, at render time). -/
def renderHeading (node : AVal) : Str :=
  let attrsOpt := asObj (getKey node "attrs".data)
  let level : Int :=
    match attrsOpt with
    | some attrs => match asFloat (lookup "level".data attrs) with
      | some l => l
      | none => 1
    | none => 1
  let level := if level < 1 then 1 else if level > 6 then 6 else level
  let hashes := repeatS ['#'] level.toNat
  let text := renderContent node
  match attrsOpt with
  | some attrs =>
    let customAttrs := attrs.filter (fun kv => kv.1 ≠ "level".data)
    if customAttrs.length > 0 then
      let attrStr := FormatAttrsForFence customAttrs ["id".data, "textAlign".data]
      if !attrStr.isEmpty then
        "<!-- adf:heading".data ++ attrStr ++ " -->\n".data ++ hashes ++ ' ' :: text
      else hashes ++ ' ' :: text
    else hashes ++ ' ' :: text
  | none => hashes ++ ' ' :: text
termination_by (sizeOf node, 4)
decreasing_by
all_goals simp_wf
all_goals first
  | (apply Prod.Lex.right; omega)
  | (apply Prod.Lex.left
     first
       | omega
       | (simp only [List.cons.sizeOf_spec, AVal.obj.sizeOf_spec]; omega)
       | (have h3 := sizeOf_getArr h
          simp only [AVal.obj.sizeOf_spec] at h3 ⊢
          omega))

/-- The item loop of `renderBulletList`. -/
def renderBulletItems (items : List AVal) (depth : Nat) : List Str :=
  match items with
  | [] => []
  | item :: rest =>
    match item with
    | .obj kvs =>
      (repeatS "  ".data depth ++ "- ".data ++ renderListItemContent (.obj kvs) depth)
        :: renderBulletItems rest depth
    | _ => renderBulletItems rest depth
termination_by (sizeOf items, 3)
decreasing_by
all_goals simp_wf
all_goals first
  | (apply Prod.Lex.right; omega)
  | (apply Prod.Lex.left
     first
       | omega
       | (simp only [List.cons.sizeOf_spec, AVal.obj.sizeOf_spec]; omega)
       | (have h3 := sizeOf_getArr h
          simp only [AVal.obj.sizeOf_spec] at h3 ⊢
          omega))

/-- Model of `renderBulletList`. -/
def renderBulletList (node : AVal) (depth : Nat) : Str :=
  match h : asArr (getKey node "content".data) with
  | none => []
  | some content => joinSep ['\n'] (renderBulletItems content depth)
termination_by (sizeOf node, 4)
decreasing_by
all_goals simp_wf
all_goals first
  | (apply Prod.Lex.right; omega)
  | (apply Prod.Lex.left
     first
       | omega
       | (simp only [List.cons.sizeOf_spec, AVal.obj.sizeOf_spec]; omega)
       | (have h3 := sizeOf_getArr h
          simp only [AVal.obj.sizeOf_spec] at h3 ⊢
          omega))

/-- The item loop of `renderOrderedList` (`num` = `startOrder + i`). -/
def renderOrderedItems (items : List AVal) (depth : Nat) (num : Int) : List Str :=
  match items with
  | [] => []
  | item :: rest =>
    match item with
    | .obj kvs =>
      (repeatS "  ".data depth ++ intToStr num ++ ". ".data
          ++ renderListItemContent (.obj kvs) depth)
        :: renderOrderedItems rest depth (num + 1)
    | _ => renderOrderedItems rest depth (num + 1)
termination_by (sizeOf items, 3)
decreasing_by
all_goals simp_wf
all_goals first
  | (apply Prod.Lex.right; omega)
  | (apply Prod.Lex.left
     first
       | omega
       | (simp only [List.cons.sizeOf_spec, AVal.obj.sizeOf_spec]; omega)
       | (have h3 := sizeOf_getArr h
          simp only [AVal.obj.sizeOf_spec] at h3 ⊢
          omega))

/-- Model of `renderOrderedList`. -/
def renderOrderedList (node : AVal) (depth : Nat) : Str :=
  match h : asArr (getKey node "content".data) with
  | none => []
  | some content =>
    let startOrder : Int :=
      match asObj (getKey node "attrs".data) with
      | some attrs => match asFloat (lookup "order".data attrs) with
        | some o => o
        | none => 1
      | none => 1
    joinSep ['\n'] (renderOrderedItems content depth startOrder)
termination_by (sizeOf node, 4)
decreasing_by
all_goals simp_wf
all_goals first
  | (apply Prod.Lex.right; omega)
  | (apply Prod.Lex.left
     first
       | omega
       | (simp only [List.cons.sizeOf_spec, AVal.obj.sizeOf_spec]; omega)
       | (have h3 := sizeOf_getArr h
          simp only [AVal.obj.sizeOf_spec] at h3 ⊢
          omega))

/-- The item loop of `renderTaskList`. -/
def renderTaskItems (items : List AVal) (depth : Nat) : List Str :=
  match items with
  | [] => []
  | item :: rest =>
    match item with
    | .obj kvs =>
      let itemMap := AVal.obj kvs
      let state :=
        match asObj (getKey itemMap "attrs".data) with
        | some attrs => (asStr (lookup "state".data attrs)).getD "TODO".data
        | none => "TODO".data
      let checkbox := if state = "DONE".data then "[x]".data else "[ ]".data
      (repeatS "  ".data depth ++ "- ".data ++ checkbox ++ ' ' :: renderContent itemMap)
        :: renderTaskItems rest depth
    | _ => renderTaskItems rest depth
termination_by (sizeOf items, 3)
decreasing_by
all_goals simp_wf
all_goals first
  | (apply Prod.Lex.right; omega)
  | (apply Prod.Lex.left
     first
       | omega
       | (simp only [List.cons.sizeOf_spec, AVal.obj.sizeOf_spec]; omega)
       | (have h3 := sizeOf_getArr h
          simp only [AVal.obj.sizeOf_spec] at h3 ⊢
          omega))

/-- Model of `renderTaskList`. -/
def renderTaskList (node : AVal) (depth : Nat) : Str :=
  match h : asArr (getKey node "content".data) with
  | none => []
  | some content => joinSep ['\n'] (renderTaskItems content depth)
termination_by (sizeOf node, 4)
decreasing_by
all_goals simp_wf
all_goals first
  | (apply Prod.Lex.right; omega)
  | (apply Prod.Lex.left
     first
       | omega
       | (simp only [List.cons.sizeOf_spec, AVal.obj.sizeOf_spec]; omega)
       | (have h3 := sizeOf_getArr h
          simp only [AVal.obj.sizeOf_spec] at h3 ⊢
          omega))

/-- Model of `renderTaskItem`. -/
def renderTaskItem (node : AVal) (depth : Nat) : Str :=
  let state :=
    match asObj (getKey node "attrs".data) with
    | some attrs => (asStr (lookup "state".data attrs)).getD "TODO".data
    | none => "TODO".data
  let checkbox := if state = "DONE".data then "[x]".data else "[ ]".data
  checkbox ++ ' ' :: renderContent node
termination_by (sizeOf node, 4)
decreasing_by
all_goals simp_wf
all_goals first
  | (apply Prod.Lex.right; omega)
  | (apply Prod.Lex.left
     first
       | omega
       | (simp only [List.cons.sizeOf_spec, AVal.obj.sizeOf_spec]; omega)
       | (have h3 := sizeOf_getArr h
          simp only [AVal.obj.sizeOf_spec] at h3 ⊢
          omega))

/-- The child loop of `renderListItemContent`, returning `(parts, nestedLists)`. -/
def renderLICChildren (children : List AVal) (depth : Nat) (i : Nat) : List Str × List Str :=
  match children with
  | [] => ([], [])
  | child :: rest =>
    match child with
    | .obj kvs =>
      let childMap := AVal.obj kvs
      let childType := getS childMap "type".data
      if childType = "paragraph".data then
        let text := renderContent childMap
        let pn := renderLICChildren rest depth (i + 1)
        ((if i = 0 then text else '\n' :: repeatS "  ".data (depth + 1) ++ text) :: pn.1, pn.2)
      else if childType = "bulletList".data then
        let pn := renderLICChildren rest depth (i + 1)
        (pn.1, renderBulletList childMap (depth + 1) :: pn.2)
      else if childType = "orderedList".data then
        let pn := renderLICChildren rest depth (i + 1)
        (pn.1, renderOrderedList childMap (depth + 1) :: pn.2)
      else if childType = "taskList".data then
        let pn := renderLICChildren rest depth (i + 1)
        (pn.1, renderTaskList childMap (depth + 1) :: pn.2)
      else
        let pn := renderLICChildren rest depth (i + 1)
        (renderADFNode childMap (depth + 1) :: pn.1, pn.2)
    | _ => renderLICChildren rest depth (i + 1)
termination_by (sizeOf children, 3)
decreasing_by
all_goals simp_wf
all_goals first
  | (apply Prod.Lex.right; omega)
  | (apply Prod.Lex.left
     first
       | omega
       | (simp only [List.cons.sizeOf_spec, AVal.obj.sizeOf_spec]; omega)
       | (have h3 := sizeOf_getArr h
          simp only [AVal.obj.sizeOf_spec] at h3 ⊢
          omega))

/-- Model of `renderListItemContent`. -/
def renderListItemContent (node : AVal) (depth : Nat) : Str :=
  match h : asArr (getKey node "content".data) with
  | none => []
  | some content =>
    let pn := renderLICChildren content depth 0
    let result := joinSep [] pn.1
    let result := if pn.2.length > 0 then result ++ '\n' :: joinSep ['\n'] pn.2 else result
    trimRightBy (· = '\n') result
termination_by (sizeOf node, 4)
decreasing_by
all_goals simp_wf
all_goals first
  | (apply Prod.Lex.right; omega)
  | (apply Prod.Lex.left
     first
       | omega
       | (simp only [List.cons.sizeOf_spec, AVal.obj.sizeOf_spec]; omega)
       | (have h3 := sizeOf_getArr h
          simp only [AVal.obj.sizeOf_spec] at h3 ⊢
          omega))

/-- Model of `renderCodeBlock`. -/
def renderCodeBlock (node : AVal) : Str :=
  let lang :=
    match asObj (getKey node "attrs".data) with
    | some attrs => (asStr (lookup "language".data attrs)).getD []
    | none => []
  let content := renderContent node
  "```".data ++ lang ++ '\n' :: content ++ "\n```".data
termination_by (sizeOf node, 4)
decreasing_by
all_goals simp_wf
all_goals first
  | (apply Prod.Lex.right; omega)
  | (apply Prod.Lex.left
     first
       | omega
       | (simp only [List.cons.sizeOf_spec, AVal.obj.sizeOf_spec]; omega)
       | (have h3 := sizeOf_getArr h
          simp only [AVal.obj.sizeOf_spec] at h3 ⊢
          omega))

/-- Model of `renderBlockquote`. -/
def renderBlockquote (node : AVal) : Str :=
  let content := renderContent node
  let lines := splitCh '\n' (trimRightBy (· = '\n') content)
  joinSep ['\n'] (lines.map (fun l => "> ".data ++ l))
termination_by (sizeOf node, 4)
decreasing_by
all_goals simp_wf
all_goals first
  | (apply Prod.Lex.right; omega)
  | (apply Prod.Lex.left
     first
       | omega
       | (simp only [List.cons.sizeOf_spec, AVal.obj.sizeOf_spec]; omega)
       | (have h3 := sizeOf_getArr h
          simp only [AVal.obj.sizeOf_spec] at h3 ⊢
          omega))

/-- Model of `renderPanel`. -/
def renderPanel (node : AVal) : Str :=
  let panelType :=
    match asObj (getKey node "attrs".data) with
    | some attrs => match asStr (lookup "panelType".data attrs) with
      | some pt => pt
      | none => "info".data
    | none => "info".data
  let content := trimSpace (renderBlockContent node)
  "~~~panel type=".data ++ panelType ++ '\n' :: content ++ "\n~~~".data
termination_by (sizeOf node, 4)
decreasing_by
all_goals simp_wf
all_goals first
  | (apply Prod.Lex.right; omega)
  | (apply Prod.Lex.left
     first
       | omega
       | (simp only [List.cons.sizeOf_spec, AVal.obj.sizeOf_spec]; omega)
       | (have h3 := sizeOf_getArr h
          simp only [AVal.obj.sizeOf_spec] at h3 ⊢
          omega))

/-- Model of `renderExpand`. -/
def renderExpand (node : AVal) : Str :=
  let title :=
    match asObj (getKey node "attrs".data) with
    | some attrs => (asStr (lookup "title".data attrs)).getD []
    | none => []
  let content := trimSpace (renderBlockContent node)
  if !title.isEmpty then
    "~~~expand title=\"".data ++ title ++ "\"\n".data ++ content ++ "\n~~~".data
  else "~~~expand\n".data ++ content ++ "\n~~~".data
termination_by (sizeOf node, 4)
decreasing_by
all_goals simp_wf
all_goals first
  | (apply Prod.Lex.right; omega)
  | (apply Prod.Lex.left
     first
       | omega
       | (simp only [List.cons.sizeOf_spec, AVal.obj.sizeOf_spec]; omega)
       | (have h3 := sizeOf_getArr h
          simp only [AVal.obj.sizeOf_spec] at h3 ⊢
          omega))

/-- The cell loop of `renderTable`, returning the cell texts and whether any
cell was a `tableHeader`. -/
def renderTableCells (cells : List AVal) : List Str × Bool :=
  match cells with
  | [] => ([], false)
  | cell :: rest =>
    match cell with
    | .obj kvs =>
      let cellMap := AVal.obj kvs
      let isHdr := getS cellMap "type".data = "tableHeader".data
      let cellText :=
        replaceAllCh '|' "\\|".data
          (replaceAllCh '\n' [' '] (trimSpace (renderContent cellMap)))
      let tr := renderTableCells rest
      (cellText :: tr.1, isHdr || tr.2)
    | _ => renderTableCells rest
termination_by (sizeOf cells, 3)
decreasing_by
all_goals simp_wf
all_goals first
  | (apply Prod.Lex.right; omega)
  | (apply Prod.Lex.left
     first
       | omega
       | (simp only [List.cons.sizeOf_spec, AVal.obj.sizeOf_spec]; omega)
       | (have h3 := sizeOf_getArr h
          simp only [AVal.obj.sizeOf_spec] at h3 ⊢
          omega))

/-- The row loop of `renderTable`. -/
def renderTableRows (rows : List AVal) : List (List Str × Bool) :=
  match rows with
  | [] => []
  | row :: rest =>
    match row with
    | .obj kvs =>
      match h : asArr (getKey (AVal.obj kvs) "content".data) with
      | some rowContent => renderTableCells rowContent :: renderTableRows rest
      | none => renderTableRows rest
    | _ => renderTableRows rest
termination_by (sizeOf rows, 3)
decreasing_by
all_goals simp_wf
all_goals first
  | (apply Prod.Lex.right; omega)
  | (apply Prod.Lex.left
     first
       | omega
       | (simp only [List.cons.sizeOf_spec, AVal.obj.sizeOf_spec]; omega)
       | (have h3 := sizeOf_getArr h
          simp only [AVal.obj.sizeOf_spec] at h3 ⊢
          omega))

/-- Model of `renderTable`. -/
def renderTable (node : AVal) : Str :=
  match h : asArr (getKey node "content".data) with
  | none => []
  | some content =>
    if content.isEmpty then []
    else renderTableAssemble (renderTableRows content)
termination_by (sizeOf node, 4)
decreasing_by
all_goals simp_wf
all_goals first
  | (apply Prod.Lex.right; omega)
  | (apply Prod.Lex.left
     first
       | omega
       | (simp only [List.cons.sizeOf_spec, AVal.obj.sizeOf_spec]; omega)
       | (have h3 := sizeOf_getArr h
          simp only [AVal.obj.sizeOf_spec] at h3 ⊢
          omega))

/-- Model of `renderMediaSingle`. -/
def renderMediaSingle (node : AVal) : Str :=
  let attrsOpt := asObj (getKey node "attrs".data)
  let layout :=
    match attrsOpt with
    | some attrs => (asStr (lookup "layout".data attrs)).getD []
    | none => []
  let width :=
    match attrsOpt with
    | some attrs => match asFloat (lookup "width".data attrs) with
      | some w => intToStr w
      | none => []
    | none => []
  let widthType :=
    match attrsOpt with
    | some attrs => (asStr (lookup "widthType".data attrs)).getD []
    | none => []
  let mediaContent := renderContent node
  let attrParts := if layout.isEmpty then ([] : List Str) else ["layout=".data ++ layout]
  let attrParts :=
    if width.isEmpty then attrParts
    else attrParts ++ ["width=".data ++ width]
      ++ (if widthType.isEmpty then [] else ["widthType=".data ++ widthType])
  let attrStr := if attrParts.isEmpty then [] else ' ' :: joinSep [' '] attrParts
  "~~~mediaSingle".data ++ attrStr ++ '\n' :: trimSpace mediaContent ++ "\n~~~".data
termination_by (sizeOf node, 4)
decreasing_by
all_goals simp_wf
all_goals first
  | (apply Prod.Lex.right; omega)
  | (apply Prod.Lex.left
     first
       | omega
       | (simp only [List.cons.sizeOf_spec, AVal.obj.sizeOf_spec]; omega)
       | (have h3 := sizeOf_getArr h
          simp only [AVal.obj.sizeOf_spec] at h3 ⊢
          omega))

/-- Model of `renderMediaGroup`. -/
def renderMediaGroup (node : AVal) : Str :=
  "~~~mediaGroup\n".data ++ trimSpace (renderContent node) ++ "\n~~~".data
termination_by (sizeOf node, 4)
decreasing_by
all_goals simp_wf
all_goals first
  | (apply Prod.Lex.right; omega)
  | (apply Prod.Lex.left
     first
       | omega
       | (simp only [List.cons.sizeOf_spec, AVal.obj.sizeOf_spec]; omega)
       | (have h3 := sizeOf_getArr h
          simp only [AVal.obj.sizeOf_spec] at h3 ⊢
          omega))

/-- Model of `renderContent` (inline concatenation of map children, non-map
children skipped). -/
def renderContent (node : AVal) : Str :=
  match h : asArr (getKey node "content".data) with
  | none => []
  | some xs =>
    List.flatten (xs.attach.map (fun cp =>
      if cp.1.isObj then renderADFNode cp.1 0 else []))
termination_by (sizeOf node, 1)
decreasing_by
all_goals simp_wf
all_goals apply Prod.Lex.left
all_goals have h3 := sizeOf_getArr h
all_goals have h4 := sizeOf_mem cp.2
all_goals omega

/-- Model of `renderBlockContent` (collect non-empty renderings of map children,
joined with blank lines). -/
def renderBlockContent (node : AVal) : Str :=
  match h : asArr (getKey node "content".data) with
  | none => []
  | some xs =>
    joinSep "\n\n".data (List.filter (fun s => !List.isEmpty s)
      (xs.attach.map (fun cp =>
        if cp.1.isObj then renderADFNode cp.1 0 else [])))
termination_by (sizeOf node, 1)
decreasing_by
all_goals simp_wf
all_goals apply Prod.Lex.left
all_goals have h3 := sizeOf_getArr h
all_goals have h4 := sizeOf_mem cp.2
all_goals omega

end

/-- The child loop of `renderContent`, as a standalone recursion (equal to
the loop inlined in `renderContent`, see `renderContent_arr`). -/
def renderContentChildren (xs : List AVal) : Str :=
  match xs with
  | [] => []
  | c :: rest =>
    (if c.isObj then renderADFNode c 0 else []) ++ renderContentChildren rest

/-- The child loop of `renderBlockContent` / `renderADFDocument`, as a
standalone recursion (collect non-empty renderings of map children). -/
def renderBlockChildren (xs : List AVal) : List Str :=
  match xs with
  | [] => []
  | c :: rest =>
    if c.isObj then
      if (renderADFNode c 0).isEmpty then renderBlockChildren rest
      else renderADFNode c 0 :: renderBlockChildren rest
    else renderBlockChildren rest

/-- Model of `renderADFDocument`. -/
def renderADFDocument (doc : AVal) : Str :=
  match asArr (getKey doc "content".data) with
  | none => []
  | some content => NormalizeWhitespace (joinSep "\n\n".data (renderBlockChildren content))

/-- Model of `ToMarkdown`. -/
def ToMarkdown (doc : AVal) : Str := renderADFDocument doc

/-! ## Parser (`from_md.go`) — inline content

`parseInlineContent` maintains the ordered matcher list below; on each
iteration every matcher is evaluated on the remaining text and the earliest
match start wins (strict `<`, so ties go to the earlier list entry); the
text before the match becomes a plain text node and scanning resumes after
the match.  The loop body is a genuine strict-progress loop (every pattern
consumes at least one character), so it is defined by well-founded recursion
on the remaining length. -/

/-- The ordered pattern list of `parseInlineContent` (extended syntax first,
then legacy mention, link, bold, italic, strike, code, color, underline,
sub, sup). -/
def inlinePats : List Pat :=
  [ExtMentionRe, ExtDateRe, ExtStatusRe, ExtCardRe, EmojiCodeRe,
   LegacyMentionRe, LinkRe, BoldRe, ItalicRe, StrikeRe, CodeRe,
   ExtColorRe, UnderlineRe, SubRe, SupRe]

/-- A plain text node (`map[string]any{"type": "text", "text": t}`). -/
def textAV (t : Str) : AVal :=
  .obj [("type".data, .s "text".data), ("text".data, .s t)]

/-- The earliest-match selection loop of `parseInlineContent`: fold over the
pattern list keeping the match with the strictly smallest start
(`loc[0] < earliestMatch`), so ties keep the earlier pattern.  Result:
`(pattern index, start, end, captures)`. -/
def earliestLoop (pats : List Pat) (remaining : Str) (pi : Nat)
    (best : Option (Nat × Nat × Nat × List Str)) : Option (Nat × Nat × Nat × List Str) :=
  match pats with
  | [] => best
  | p :: rest =>
    let best' :=
      match findFirst p remaining with
      | some (st, en, caps) =>
        match best with
        | none => some (pi, st, en, caps)
        | some (qi, qs, qe, qcaps) =>
          if st < qs then some (pi, st, en, caps) else some (qi, qs, qe, qcaps)
      | none => best
    earliestLoop rest remaining (pi + 1) best'

/-- The per-pattern node constructors of `parseInlineContent` (the `handler`
closures), indexed by position in `inlinePats`; `gen`/`ctr` model
`GenerateLocalID`. -/
def inlineHandler (gen : Nat → Str) (pi : Nat) (caps : List Str) (ctr : Nat) : AVal × Nat :=
  let cap (n : Nat) : Str := (caps.getD n [])
  if pi = 0 then -- mention {user:id}
    (.obj [("type".data, .s "mention".data),
           ("attrs".data, .obj [("id".data, .s (cap 0)), ("text".data, .s ('@' :: cap 0))])], ctr)
  else if pi = 1 then -- date
    (.obj [("type".data, .s "date".data),
           ("attrs".data, .obj [("timestamp".data, .s (ParseTimestamp (cap 0)))])], ctr)
  else if pi = 2 then -- status (consumes a local id)
    let attrs := [("text".data, AVal.s (cap 0)), ("localId".data, AVal.s (gen ctr))]
    let attrs :=
      if !(cap 1).isEmpty then
        let color := getStr (SplitStatusAttrs (cap 1)) "color".data
        if !color.isEmpty then attrs ++ [("color".data, AVal.s color)] else attrs
      else attrs
    (.obj [("type".data, .s "status".data), ("attrs".data, .obj attrs)], ctr + 1)
  else if pi = 3 then -- card
    (.obj [("type".data, .s "inlineCard".data),
           ("attrs".data, .obj [("url".data, .s (cap 0))])], ctr)
  else if pi = 4 then -- emoji
    (.obj [("type".data, .s "emoji".data),
           ("attrs".data, .obj [("shortName".data, .s (':' :: cap 0 ++ [':']))])], ctr)
  else if pi = 5 then -- legacy mention @[Name](accountId:id)
    (.obj [("type".data, .s "mention".data),
           ("attrs".data, .obj [("id".data, .s (cap 1)), ("text".data, .s ('@' :: cap 0))])], ctr)
  else if pi = 6 then -- link
    let linkAttrs := [("href".data, AVal.s (cap 1))]
    let linkAttrs := if !(cap 2).isEmpty then linkAttrs ++ [("title".data, AVal.s (cap 2))] else linkAttrs
    (.obj [("type".data, .s "text".data), ("text".data, .s (cap 0)),
           ("marks".data, .arr [.obj [("type".data, .s "link".data), ("attrs".data, .obj linkAttrs)]])], ctr)
  else if pi = 7 then -- bold (match[1] or match[2])
    let t := if (cap 0).isEmpty then cap 1 else cap 0
    (.obj [("type".data, .s "text".data), ("text".data, .s t),
           ("marks".data, .arr [.obj [("type".data, .s "strong".data)]])], ctr)
  else if pi = 8 then -- italic
    let t := if (cap 0).isEmpty then cap 1 else cap 0
    (.obj [("type".data, .s "text".data), ("text".data, .s t),
           ("marks".data, .arr [.obj [("type".data, .s "em".data)]])], ctr)
  else if pi = 9 then -- strike
    (.obj [("type".data, .s "text".data), ("text".data, .s (cap 0)),
           ("marks".data, .arr [.obj [("type".data, .s "strike".data)]])], ctr)
  else if pi = 10 then -- code
    (.obj [("type".data, .s "text".data), ("text".data, .s (cap 0)),
           ("marks".data, .arr [.obj [("type".data, .s "code".data)]])], ctr)
  else if pi = 11 then -- text color
    (.obj [("type".data, .s "text".data), ("text".data, .s (cap 1)),
           ("marks".data, .arr [.obj [("type".data, .s "textColor".data),
             ("attrs".data, .obj [("color".data, .s (cap 0))])]])], ctr)
  else if pi = 12 then -- underline
    (.obj [("type".data, .s "text".data), ("text".data, .s (cap 0)),
           ("marks".data, .arr [.obj [("type".data, .s "underline".data)]])], ctr)
  else if pi = 13 then -- subscript
    (.obj [("type".data, .s "text".data), ("text".data, .s (cap 0)),
           ("marks".data, .arr [.obj [("type".data, .s "subsup".data),
             ("attrs".data, .obj [("type".data, .s "sub".data)])]])], ctr)
  else -- superscript
    (.obj [("type".data, .s "text".data), ("text".data, .s (cap 0)),
           ("marks".data, .arr [.obj [("type".data, .s "subsup".data),
             ("attrs".data, .obj [("type".data, .s "sup".data)])]])], ctr)

/-- A pattern that never matches the empty string. -/
def NonNull (p : Pat) : Prop := ∀ s r, p s = some r → 1 ≤ r.len

theorem nonNull_pch {c : Char} : NonNull (pch c) := by
  intro s r h
  cases s with
  | nil => simp [pch] at h
  | cons c' cs =>
    simp only [pch] at h
    split at h
    · cases h; exact Nat.le_refl 1
    · simp at h

theorem nonNull_pstr {lit : Str} (hl : lit ≠ []) : NonNull (pstr lit) := by
  intro s r h
  simp only [pstr] at h
  split at h
  · cases h
    exact List.length_pos.mpr hl
  · simp at h

theorem nonNull_pseq {a b : Pat} (ha : NonNull a) : NonNull (pseq a b) := by
  intro s r h
  simp only [pseq] at h
  cases hA : a s with
  | none => rw [hA] at h; simp at h
  | some ra =>
    rw [hA] at h
    simp only at h
    cases hB : b (s.drop ra.len) with
    | none => rw [hB] at h; simp at h
    | some rb =>
      rw [hB] at h
      cases h
      have := ha s ra hA
      show 1 ≤ ra.len + rb.len
      omega

theorem nonNull_palt2 {a b : Pat} {ga gb : Nat} (ha : NonNull a) (hb : NonNull b) :
    NonNull (palt2 a ga b gb) := by
  intro s r h
  simp only [palt2] at h
  cases hA : a s with
  | some ra =>
    rw [hA] at h
    simp only at h
    cases h
    have := ha s ra hA
    show 1 ≤ ra.len
    omega
  | none =>
    rw [hA] at h
    simp only at h
    cases hB : b s with
    | none => rw [hB] at h; simp at h
    | some rb =>
      rw [hB] at h
      simp only at h
      cases h
      have := hb s rb hB
      show 1 ≤ rb.len
      omega

/-- Every pattern in `inlinePats` consumes at least one character. -/
theorem inlinePats_nonNull : ∀ p ∈ inlinePats, NonNull p := by
  intro p hp
  simp only [inlinePats, List.mem_cons, List.not_mem_nil, or_false] at hp
  rcases hp with h|h|h|h|h|h|h|h|h|h|h|h|h|h|h <;> subst h <;>
    first
      | exact nonNull_pseq (nonNull_pstr (by simp))
      | exact nonNull_pseq nonNull_pch
      | exact nonNull_palt2 (nonNull_pseq (nonNull_pstr (by simp)))
          (nonNull_pseq (nonNull_pstr (by simp)))
      | exact nonNull_palt2 (nonNull_pseq nonNull_pch) (nonNull_pseq nonNull_pch)

theorem findFirstGo_pos {p : Pat} (hp : NonNull p) :
    ∀ {s : Str} {pos a b : Nat} {caps : List Str},
      findFirstGo p s pos = some (a, b, caps) → pos + 1 ≤ b := by
  intro s
  induction s with
  | nil =>
    intro pos a b caps h
    simp only [findFirstGo] at h
    cases hP : p [] with
    | none => rw [hP] at h; simp at h
    | some r =>
      rw [hP] at h
      simp only at h
      cases h
      have := hp [] r hP
      omega
  | cons c rest ih =>
    intro pos a b caps h
    simp only [findFirstGo] at h
    cases hP : p (c :: rest) with
    | none =>
      rw [hP] at h
      simp only at h
      have := ih h
      omega
    | some r =>
      rw [hP] at h
      simp only at h
      cases h
      have := hp _ r hP
      omega

theorem findFirst_pos {p : Pat} (hp : NonNull p) {s : Str} {a b : Nat} {caps : List Str}
    (h : findFirst p s = some (a, b, caps)) : 1 ≤ b := by
  have := findFirstGo_pos hp h
  omega

theorem earliestLoop_pos :
    ∀ {pats : List Pat}, (∀ p ∈ pats, NonNull p) →
    ∀ {remaining : Str} {pi : Nat} {best : Option (Nat × Nat × Nat × List Str)},
      (∀ bi ba bb bcaps, best = some (bi, ba, bb, bcaps) → 1 ≤ bb) →
    ∀ {y : Nat × Nat × Nat × List Str}, earliestLoop pats remaining pi best = some y →
      1 ≤ y.2.2.1 := by
  intro pats
  induction pats with
  | nil =>
    intro _ remaining pi best hbest y h
    simp only [earliestLoop] at h
    obtain ⟨yi, ya, yb, ycaps⟩ := y
    exact hbest yi ya yb ycaps h
  | cons p rest ih =>
    intro hnn remaining pi best hbest y h
    simp only [earliestLoop] at h
    refine ih (fun q hq => hnn q (List.mem_cons_of_mem p hq)) ?_ h
    intro bi ba bb bcaps hb
    cases hF : findFirst p remaining with
    | none =>
      rw [hF] at hb
      simp only at hb
      exact hbest bi ba bb bcaps hb
    | some loc =>
      rw [hF] at hb
      obtain ⟨la, lb, lcaps⟩ := loc
      simp only at hb
      have hlb : 1 ≤ lb := findFirst_pos (hnn p (List.mem_cons_self p rest)) hF
      cases hB : best with
      | none =>
        rw [hB] at hb
        simp only at hb
        cases hb
        omega
      | some b0 =>
        rw [hB] at hb
        obtain ⟨b0i, b0a, b0b, b0caps⟩ := b0
        simp only at hb
        by_cases hlt : la < b0a
        · rw [if_pos hlt] at hb; cases hb; omega
        · rw [if_neg hlt] at hb; cases hb
          exact hbest _ _ _ _ (by rw [hB])

/-- The scan loop of `parseInlineContent`, with structural fuel.
`parseInlineLoopF_total` below proves that `remaining.length + 1` fuel always
suffices (every pattern consumes at least one character, so the loop strictly
advances its matched-text position) — the `none` (out of fuel) result is
unreachable from `parseInlineContent`. -/
def parseInlineLoopF (gen : Nat → Str) : Nat → Str → Nat → List AVal →
    Option (List AVal × Nat)
  | 0, _, _, _ => none
  | fuel + 1, remaining, ctr, acc =>
    if remaining.isEmpty then some (acc, ctr)
    else
      match earliestLoop inlinePats remaining 0 none with
      | none =>
        some ((if remaining.isEmpty then acc else acc ++ [textAV remaining]), ctr)
      | some (pj, st, en, caps) =>
        let acc := if 0 < st then acc ++ [textAV (remaining.take st)] else acc
        let nc := inlineHandler gen pj caps ctr
        parseInlineLoopF gen fuel (remaining.drop en) nc.2 (acc ++ [nc.1])
termination_by structural f => f

/-- The inline scan loop always terminates within `remaining.length + 1`
iterations: every winning match ends at a positive offset, so the remaining
text strictly shrinks. -/
theorem parseInlineLoopF_total (gen : Nat → Str) :
    ∀ (fuel : Nat) (remaining : Str) (ctr : Nat) (acc : List AVal),
      remaining.length < fuel → parseInlineLoopF gen fuel remaining ctr acc ≠ none := by
  intro fuel
  induction fuel with
  | zero => intro r c a h; simp at h
  | succ f ih =>
    intro remaining ctr acc h
    simp only [parseInlineLoopF]
    by_cases hemp : remaining.isEmpty
    · simp [hemp]
    · simp only [hemp, Bool.false_eq_true, if_false]
      cases hE : earliestLoop inlinePats remaining 0 none with
      | none => simp
      | some y =>
        obtain ⟨pj, st, en, caps⟩ := y
        have hen : 1 ≤ en :=
          earliestLoop_pos inlinePats_nonNull (fun _ _ _ _ hx => by simp at hx) hE
        have hne : remaining ≠ [] := by simpa [List.isEmpty_iff] using hemp
        have hpos : 0 < remaining.length := List.length_pos.mpr hne
        have hd : (remaining.drop en).length = remaining.length - en :=
          List.length_drop en remaining
        exact ih (remaining.drop en) _ _ (by omega)

/-- Model of `parseInlineContent`.  (The `none` fallback arm is dead code by
`parseInlineLoopF_total`.) -/
def parseInlineContent (gen : Nat → Str) (text : Str) (ctr : Nat) : List AVal × Nat :=
  if text.isEmpty then ([], ctr)
  else
    match parseInlineLoopF gen (text.length + 1) text ctr [] with
    | some rc => (if rc.1.isEmpty then [textAV text] else rc.1, rc.2)
    | none => ([textAV text], ctr)

/-! ## Parser (`from_md.go`) — block structure

All block-level loops carry an explicit fuel parameter; `none` means the
fuel ran out.  This is not an artifact that can be removed: `parseListItem`'s
nested-list loop does not always advance (see the C2 theorems), so the
source admits no termination measure. -/

/-- Model of `strings.Index` (`none` for Go's `-1`). -/
def indexOfSub (sub : Str) : Str → Option Nat
  | [] => if sub.isEmpty then some 0 else none
  | c :: cs =>
    if startsWith sub (c :: cs) then some 0
    else (indexOfSub sub cs).map (· + 1)

/-- Map assignment on a modelled `map[string]any`. -/
def setAV (m : List (Str × AVal)) (k : Str) (v : AVal) : List (Str × AVal) :=
  match m with
  | [] => [(k, v)]
  | (k', v') :: rest => if k' = k then (k, v) :: rest else (k', v') :: setAV rest k v

/-- Go `fmt.Sscanf(s, "%f")` restricted to the integral floats appearing in
this subsystem (fence `width=` attributes): the fractional part is not
represented. -/
def scanGoFloat (s : Str) : Option Int := scanGoInt s

/-- Model of `parseMediaFromImage`: a reserved `jira-media:id:collection:type` source
resolves to a media node; anything else becomes a pending upload placeholder
whose id is `__PENDING_UPLOAD_<GenerateLocalID()>__` and whose `_source`
attribute holds the literal source. -/
def parseMediaFromImage (gen : Nat → Str) (alt src : Str) (ctr : Nat) : AVal × Nat :=
  let resolved : Option AVal :=
    if startsWith "jira-media:".data src then
      let parts := splitNCh ':' 3 (trimPrefixS "jira-media:".data src)
      if 3 ≤ parts.length then
        some (.obj [("type".data, .s "media".data),
          ("attrs".data, .obj [
            ("id".data, .s (parts.getD 0 [])),
            ("collection".data, .s (parts.getD 1 [])),
            ("type".data, .s (parts.getD 2 [])),
            ("alt".data, .s alt)])])
      else none
    else none
  match resolved with
  | some node => (node, ctr)
  | none =>
    (.obj [("type".data, .s "media".data),
      ("attrs".data, .obj [
        ("id".data, .s ("__PENDING_UPLOAD_".data ++ gen ctr ++ "__".data)),
        ("type".data, .s "file".data),
        ("alt".data, .s alt),
        ("_source".data, .s src)])], ctr + 1)

/-- Model of `parseStandaloneImage`. -/
def parseStandaloneImage (gen : Nat → Str) (alt src : Str) (ctr : Nat) : AVal × Nat :=
  let mc := parseMediaFromImage gen alt src ctr
  (.obj [("type".data, .s "mediaSingle".data),
    ("attrs".data, .obj [("layout".data, .s "align-start".data)]),
    ("content".data, .arr [mc.1])], mc.2)

/-- Model of `parseMediaSingleBlock`. -/
def parseMediaSingleBlock (gen : Nat → Str) (attrs : List (Str × Str)) (content : Str)
    (ctr : Nat) : AVal × Nat :=
  let layout := let l := getStr attrs "layout".data; if l.isEmpty then "align-start".data else l
  let nodeAttrs := [("layout".data, AVal.s layout)]
  let nodeAttrs :=
    let width := getStr attrs "width".data
    if !width.isEmpty then
      let w := (scanGoFloat width).getD 0
      if 0 < w then
        let widthType :=
          let wt := getStr attrs "widthType".data
          if wt.isEmpty then "pixel".data else wt
        nodeAttrs ++ [("width".data, AVal.f w), ("widthType".data, AVal.s widthType)]
      else nodeAttrs
    else nodeAttrs
  let mc : AVal × Nat :=
    match findFirst ImageRe content with
    | some (_, _, caps) => parseMediaFromImage gen (caps.getD 0 []) (caps.getD 1 []) ctr
    | none =>
      (.obj [("type".data, .s "media".data),
        ("attrs".data, .obj [("type".data, .s "file".data)])], ctr)
  (.obj [("type".data, .s "mediaSingle".data),
    ("attrs".data, .obj nodeAttrs),
    ("content".data, .arr [mc.1])], mc.2)

/-- The per-image loop of `parseMediaGroupBlock`. -/
def mediaNodesLoop (gen : Nat → Str) (ms : List (List Str)) (ctr : Nat) : List AVal × Nat :=
  match ms with
  | [] => ([], ctr)
  | caps :: rest =>
    let mc := parseMediaFromImage gen (caps.getD 0 []) (caps.getD 1 []) ctr
    let tr := mediaNodesLoop gen rest mc.2
    (mc.1 :: tr.1, tr.2)

/-- Model of `parseMediaGroupBlock`. -/
def parseMediaGroupBlock (gen : Nat → Str) (content : Str) (ctr : Nat) : AVal × Nat :=
  let mc := mediaNodesLoop gen (findAllGo ImageRe content) ctr
  (.obj [("type".data, .s "mediaGroup".data), ("content".data, .arr mc.1)], mc.2)

/-- Model of `parseHeading`: a run of `#` that is in [1,6] and followed by a space
yields a heading (whose `level` attribute is a Go `int`); anything else
yields `nil` — the line is dropped by `parseBlocks`. -/
def parseHeading (gen : Nat → Str) (line : Str) (metadata : Option (List (Str × Str)))
    (ctr : Nat) : Option AVal × Nat :=
  let level := (line.takeWhile (· = '#')).length
  if level = 0 || 6 < level || line.length ≤ level || !(line.getD level '#' = ' ') then
    (none, ctr)
  else
    let headingText := trimSpace (line.drop (level + 1))
    let attrs := (metadata.getD []).foldl (fun a kv => setAV a kv.1 (AVal.s kv.2))
      [("level".data, AVal.i level)]
    let ic := parseInlineContent gen headingText ctr
    (some (.obj [("type".data, .s "heading".data),
      ("attrs".data, .obj attrs),
      ("content".data, .arr ic.1)]), ic.2)

/-- Model of `parseTableRow`. -/
def parseTableRow (line : Str) : List Str :=
  (splitCh '|' (trimPipes line)).map trimSpace

/-- The cell loop of `parseTable` (cell text is re-parsed as inline content). -/
def tableCellsParse (gen : Nat → Str) (cells : List Str) (cellType : Str) (ctr : Nat) :
    List AVal × Nat :=
  match cells with
  | [] => ([], ctr)
  | c :: rest =>
    let ic := parseInlineContent gen c ctr
    let cellNode := AVal.obj [("type".data, .s cellType),
      ("attrs".data, .obj []),
      ("content".data, .arr [.obj [("type".data, .s "paragraph".data),
        ("content".data, .arr ic.1)]])]
    let tr := tableCellsParse gen rest cellType ic.2
    (cellNode :: tr.1, tr.2)

/-- The row loop of `parseTable`: consume lines starting with `|`; a line
whose trimmed text contains `---` is skipped (separator); the first kept row
gets `tableHeader` cells. -/
def tableLoopF (gen : Nat → Str) : Nat → List Str → Nat → Bool → Nat →
    Option (List AVal × Nat × Nat)
  | 0, _, _, _, _ => none
  | fuel + 1, lines, idx, isFirstRow, ctr =>
    match lines[idx]? with
    | none => some ([], idx, ctr)
    | some line =>
      if !startsWith "|".data line then some ([], idx, ctr)
      else
        let rowLine := trimSpace line
        if containsSub "---".data rowLine then
          tableLoopF gen fuel lines (idx + 1) isFirstRow ctr
        else
          let cells := parseTableRow rowLine
          let cellType := if isFirstRow then "tableHeader".data else "tableCell".data
          let rc := tableCellsParse gen cells cellType ctr
          let row := AVal.obj [("type".data, .s "tableRow".data), ("content".data, .arr rc.1)]
          match tableLoopF gen fuel lines (idx + 1) false rc.2 with
          | none => none
          | some (rows, endIdx, ctr') => some (row :: rows, endIdx, ctr')

/-- Model of `parseTable`. -/
def parseTableF (gen : Nat → Str) (fuel : Nat) (lines : List Str) (startIdx : Nat)
    (ctr : Nat) : Option (Option AVal × Nat × Nat) :=
  match tableLoopF gen fuel lines startIdx true ctr with
  | none => none
  | some (tableRows, endIdx, ctr') =>
    if tableRows.isEmpty then some (none, endIdx, ctr')
    else
      some (some (.obj [("type".data, .s "table".data),
        ("attrs".data, .obj [("isNumberColumnEnabled".data, .b false),
          ("layout".data, .s "default".data)]),
        ("content".data, .arr tableRows)]), endIdx, ctr')

/-- The item loop of `parseTaskList`. -/
def taskItemsLoopF (gen : Nat → Str) : Nat → List Str → Nat → Nat →
    Option (List AVal × Nat × Nat)
  | 0, _, _, _ => none
  | fuel + 1, lines, idx, ctr =>
    match lines[idx]? with
    | none => some ([], idx, ctr)
    | some line =>
      match reMatch TaskItemRe line with
      | none => some ([], idx, ctr)
      | some caps =>
        let state :=
          if caps.getD 1 [] = "x".data || caps.getD 1 [] = "X".data then "DONE".data
          else "TODO".data
        let itemText := caps.getD 2 []
        let localId := gen ctr
        let ic := parseInlineContent gen itemText (ctr + 1)
        let item := AVal.obj [("type".data, .s "taskItem".data),
          ("attrs".data, .obj [("localId".data, .s localId), ("state".data, .s state)]),
          ("content".data, .arr ic.1)]
        match taskItemsLoopF gen fuel lines (idx + 1) ic.2 with
        | none => none
        | some (items, endIdx, ctr') => some (item :: items, endIdx, ctr')

/-- Model of `parseTaskList`. -/
def parseTaskListF (gen : Nat → Str) (fuel : Nat) (lines : List Str) (startIdx : Nat)
    (ctr : Nat) : Option (AVal × Nat × Nat) :=
  match taskItemsLoopF gen fuel lines startIdx ctr with
  | none => none
  | some (items, endIdx, ctr') =>
    some (.obj [("type".data, .s "taskList".data),
      ("attrs".data, .obj [("localId".data, .s (gen ctr'))]),
      ("content".data, .arr items)], endIdx, ctr' + 1)

/-- The line scan of `parseCodeBlock`. -/
def codeScanF : Nat → List Str → Nat → List Str → Option (List Str × Nat)
  | 0, _, _, _ => none
  | fuel + 1, lines, idx, acc =>
    match lines[idx]? with
    | none => some (acc, idx + 1)
    | some l =>
      if startsWith "```".data l then some (acc, idx + 1)
      else codeScanF fuel lines (idx + 1) (acc ++ [l])

/-- Model of `parseCodeBlock`. -/
def parseCodeBlockF (fuel : Nat) (lines : List Str) (startIdx : Nat) : Option (AVal × Nat) :=
  let line := lines.getD startIdx []
  let lang := trimSpace (trimPrefixS "```".data line)
  match codeScanF fuel lines (startIdx + 1) [] with
  | none => none
  | some (codeLines, endIdx) =>
    some (.obj [("type".data, .s "codeBlock".data),
      ("attrs".data, .obj [("language".data, .s lang)]),
      ("content".data, .arr [textAV (joinSep ['\n'] codeLines)])], endIdx)

/-- The line scan of `parseBlockquote`. -/
def quoteScanF : Nat → List Str → Nat → List Str → Option (List Str × Nat)
  | 0, _, _, _ => none
  | fuel + 1, lines, idx, acc =>
    match lines[idx]? with
    | none => some (acc, idx)
    | some line =>
      if startsWith "> ".data line then
        quoteScanF fuel lines (idx + 1) (acc ++ [trimPrefixS "> ".data line])
      else if line = ">".data then quoteScanF fuel lines (idx + 1) (acc ++ [[]])
      else some (acc, idx)

/-- The line scan of `parseParagraph`: greedily consume lines until a blank
line or (once at least one line is collected) a line opening another block. -/
def paraScanF : Nat → List Str → Nat → List Str → Option (List Str × Nat)
  | 0, _, _, _ => none
  | fuel + 1, lines, idx, acc =>
    match lines[idx]? with
    | none => some (acc, idx)
    | some line =>
      if (trimSpace line).isEmpty then some (acc, idx + 1)
      else
        let newBlock :=
          startsWith "#".data line || startsWith "```".data line ||
          startsWith "~~~".data line || startsWith "> ".data line ||
          startsWith "- ".data line || startsWith "* ".data line ||
          startsWith "+ ".data line || startsWith "|".data line ||
          line = "---".data || line = "***".data || line = "___".data
        if newBlock && !acc.isEmpty then some (acc, idx)
        else if (OrderedGuardRe line).isSome && !acc.isEmpty then some (acc, idx)
        else if (TaskItemRe line).isSome && !acc.isEmpty then some (acc, idx)
        else paraScanF fuel lines (idx + 1) (acc ++ [line])

/-- Model of `parseParagraph`. -/
def parseParagraphF (gen : Nat → Str) (fuel : Nat) (lines : List Str) (startIdx : Nat)
    (metadata : Option (List (Str × Str))) (ctr : Nat) : Option (Option AVal × Nat × Nat) :=
  match paraScanF fuel lines startIdx [] with
  | none => none
  | some (paraLines, endIdx) =>
    if paraLines.isEmpty then some (none, endIdx, ctr)
    else
      let paraText := joinSep ['\n'] paraLines
      let ic := parseInlineContent gen paraText ctr
      let base := [("type".data, AVal.s "paragraph".data), ("content".data, AVal.arr ic.1)]
      let node :=
        if 0 < (metadata.getD []).length then
          AVal.obj (base ++ [("attrs".data,
            AVal.obj ((metadata.getD []).map (fun kv => (kv.1, AVal.s kv.2))))])
        else AVal.obj base
      some (some node, endIdx, ic.2)

/-- The closing-fence scan of `parseFenceBlock`. -/
def fenceScanF : Nat → List Str → Nat → List Str → Option (List Str × Nat)
  | 0, _, _, _ => none
  | fuel + 1, lines, idx, acc =>
    match lines[idx]? with
    | none => some (acc, idx)
    | some l =>
      if (FenceCloseRe l).isSome then some (acc, idx + 1)
      else fenceScanF fuel lines (idx + 1) (acc ++ [l])

mutual

/-- Model of `parseBlocks`: the block dispatcher (one fuel unit per processed line /
recursive entry).  `pendMeta` is the pending metadata-comment attribute map. -/
def parseBlocksF (gen : Nat → Str) : Nat → List Str → Nat →
    Option (List (Str × Str)) → List AVal → Nat → Option (List AVal × Nat)
  | 0, _, _, _, _, _ => none
  | fuel + 1, lines, idx, pendMeta, acc, ctr =>
    match lines[idx]? with
    | none => some (acc, ctr)
    | some line =>
      if (trimSpace line).isEmpty then
        parseBlocksF gen fuel lines (idx + 1) pendMeta acc ctr
      else
        match findFirst MetadataCommentRe line with
        | some (_, _, caps) =>
          parseBlocksF gen fuel lines (idx + 1) (some (ParseAttrs (caps.getD 1 []))) acc ctr
        | none =>
          match reMatch FenceBlockRe line with
          | some fcaps =>
            match parseFenceBlockF gen fuel lines idx (fcaps.getD 0 []) (fcaps.getD 1 []) ctr with
            | none => none
            | some (node, endIdx, ctr') =>
              parseBlocksF gen fuel lines endIdx none (acc ++ [node]) ctr'
          | none =>
            if startsWith "```".data line then
              match parseCodeBlockF fuel lines idx with
              | none => none
              | some (node, endIdx) =>
                parseBlocksF gen fuel lines endIdx none (acc ++ [node]) ctr
            else if startsWith "#".data line then
              let hc := parseHeading gen line pendMeta ctr
              let acc := match hc.1 with | some node => acc ++ [node] | none => acc
              parseBlocksF gen fuel lines (idx + 1) none acc hc.2
            else if line = "---".data || line = "***".data || line = "___".data then
              parseBlocksF gen fuel lines (idx + 1) none
                (acc ++ [.obj [("type".data, .s "rule".data)]]) ctr
            else if startsWith "> ".data line || line = ">".data then
              match parseBlockquoteF gen fuel lines idx ctr with
              | none => none
              | some (node, endIdx, ctr') =>
                parseBlocksF gen fuel lines endIdx none (acc ++ [node]) ctr'
            else if startsWith "|".data line && containsSub "|".data line then
              match parseTableF gen fuel lines idx ctr with
              | none => none
              | some (nodeOpt, endIdx, ctr') =>
                let acc := match nodeOpt with | some node => acc ++ [node] | none => acc
                parseBlocksF gen fuel lines endIdx none acc ctr'
            else if (TaskItemRe line).isSome then
              match parseTaskListF gen fuel lines idx ctr with
              | none => none
              | some (node, endIdx, ctr') =>
                parseBlocksF gen fuel lines endIdx none (acc ++ [node]) ctr'
            else if startsWith "- ".data line || startsWith "* ".data line
                || startsWith "+ ".data line then
              match parseBulletListF gen fuel lines idx 0 ctr with
              | none => none
              | some (nodeOpt, endIdx, ctr') =>
                let acc := match nodeOpt with | some node => acc ++ [node] | none => acc
                parseBlocksF gen fuel lines endIdx none acc ctr'
            else if (OrderedGuardRe line).isSome then
              match parseOrderedListF gen fuel lines idx 0 ctr with
              | none => none
              | some (nodeOpt, endIdx, ctr') =>
                let acc := match nodeOpt with | some node => acc ++ [node] | none => acc
                parseBlocksF gen fuel lines endIdx none acc ctr'
            else
              match reMatch ImageLineRe (trimSpace line) with
              | some icaps =>
                let mc := parseStandaloneImage gen (icaps.getD 0 []) (icaps.getD 1 []) ctr
                parseBlocksF gen fuel lines (idx + 1) none (acc ++ [mc.1]) mc.2
              | none =>
                match parseParagraphF gen fuel lines idx pendMeta ctr with
                | none => none
                | some (nodeOpt, endIdx, ctr') =>
                  let acc := match nodeOpt with | some node => acc ++ [node] | none => acc
                  parseBlocksF gen fuel lines endIdx none acc ctr'
termination_by structural f => f

/-- Model of `parseFenceBlock`: find the closing `~~~`, then dispatch by fence name
(`panel`/`expand`/`mediaSingle`/`mediaGroup`, unknown → code block). -/
def parseFenceBlockF (gen : Nat → Str) : Nat → List Str → Nat → Str → Str → Nat →
    Option (AVal × Nat × Nat)
  | 0, _, _, _, _, _ => none
  | fuel + 1, lines, startIdx, blockType, attrStr, ctr =>
    match fenceScanF fuel lines (startIdx + 1) [] with
    | none => none
    | some (contentLines, endIdx) =>
      let innerContent := joinSep ['\n'] contentLines
      let attrs := ParseAttrs attrStr
      if blockType = "panel".data then
        match parsePanelBlockF gen fuel attrs innerContent ctr with
        | none => none
        | some (node, ctr') => some (node, endIdx, ctr')
      else if blockType = "expand".data then
        match parseExpandBlockF gen fuel attrs innerContent ctr with
        | none => none
        | some (node, ctr') => some (node, endIdx, ctr')
      else if blockType = "mediaSingle".data then
        let mc := parseMediaSingleBlock gen attrs innerContent ctr
        some (mc.1, endIdx, mc.2)
      else if blockType = "mediaGroup".data then
        let mc := parseMediaGroupBlock gen innerContent ctr
        some (mc.1, endIdx, mc.2)
      else
        some (.obj [("type".data, .s "codeBlock".data),
          ("attrs".data, .obj [("language".data, .s blockType)]),
          ("content".data, .arr [textAV innerContent])], endIdx, ctr)
termination_by structural f => f

/-- Model of `parsePanelBlock` (fence body re-parsed as blocks). -/
def parsePanelBlockF (gen : Nat → Str) : Nat → List (Str × Str) → Str → Nat →
    Option (AVal × Nat)
  | 0, _, _, _ => none
  | fuel + 1, attrs, content, ctr =>
    let panelType := let p := getStr attrs "type".data; if p.isEmpty then "info".data else p
    match parseBlocksF gen fuel (splitCh '\n' content) 0 none [] ctr with
    | none => none
    | some (innerBlocks, ctr') =>
      some (.obj [("type".data, .s "panel".data),
        ("attrs".data, .obj [("panelType".data, .s panelType)]),
        ("content".data, .arr innerBlocks)], ctr')
termination_by structural f => f

/-- Model of `parseExpandBlock`. -/
def parseExpandBlockF (gen : Nat → Str) : Nat → List (Str × Str) → Str → Nat →
    Option (AVal × Nat)
  | 0, _, _, _ => none
  | fuel + 1, attrs, content, ctr =>
    let title := getStr attrs "title".data
    match parseBlocksF gen fuel (splitCh '\n' content) 0 none [] ctr with
    | none => none
    | some (innerBlocks, ctr') =>
      some (.obj [("type".data, .s "expand".data),
        ("attrs".data, .obj [("title".data, .s title)]),
        ("content".data, .arr innerBlocks)], ctr')
termination_by structural f => f

/-- Model of `parseBlockquote` (quoted lines re-parsed as blocks). -/
def parseBlockquoteF (gen : Nat → Str) : Nat → List Str → Nat → Nat →
    Option (AVal × Nat × Nat)
  | 0, _, _, _ => none
  | fuel + 1, lines, startIdx, ctr =>
    match quoteScanF fuel lines startIdx [] with
    | none => none
    | some (quoteLines, endIdx) =>
      match parseBlocksF gen fuel quoteLines 0 none [] ctr with
      | none => none
      | some (inner, ctr') =>
        some (.obj [("type".data, .s "blockquote".data),
          ("content".data, .arr inner)], endIdx, ctr')
termination_by structural f => f

/-- The item loop of `parseBulletList`: stop on a blank line (consuming it),
an indentation mismatch, or a non-bullet marker. -/
def bulletLoopF (gen : Nat → Str) : Nat → List Str → Nat → Nat → Nat →
    Option (List AVal × Nat × Nat)
  | 0, _, _, _, _ => none
  | fuel + 1, lines, idx, depth, ctr =>
    match lines[idx]? with
    | none => some ([], idx, ctr)
    | some line =>
      if (trimSpace line).isEmpty then some ([], idx + 1, ctr)
      else
        let currentIndent := GetIndentLevel line
        let trimmedLine := trimLeftSpTab line
        if currentIndent < depth then some ([], idx, ctr)
        else if depth < currentIndent then some ([], idx, ctr)
        else if !(startsWith "- ".data trimmedLine || startsWith "* ".data trimmedLine
            || startsWith "+ ".data trimmedLine) then some ([], idx, ctr)
        else
          match parseListItemF gen fuel lines idx depth ctr with
          | none => none
          | some (itemContent, endIdx, ctr') =>
            let item := AVal.obj [("type".data, .s "listItem".data),
              ("content".data, .arr itemContent)]
            match bulletLoopF gen fuel lines endIdx depth ctr' with
            | none => none
            | some (items, endIdx2, ctr2) => some (item :: items, endIdx2, ctr2)
termination_by structural f => f

/-- Model of `parseBulletList` (`(nil, startIdx)` when no item was parsed). -/
def parseBulletListF (gen : Nat → Str) : Nat → List Str → Nat → Nat → Nat →
    Option (Option AVal × Nat × Nat)
  | 0, _, _, _, _ => none
  | fuel + 1, lines, startIdx, depth, ctr =>
    match bulletLoopF gen fuel lines startIdx depth ctr with
    | none => none
    | some (items, endIdx, ctr') =>
      if items.isEmpty then some (none, startIdx, ctr')
      else
        some (some (.obj [("type".data, .s "bulletList".data),
          ("content".data, .arr items)]), endIdx, ctr')
termination_by structural f => f

/-- The item loop of `parseOrderedList`; the last component is the literal
number of the first item (`startOrder`). -/
def orderedLoopF (gen : Nat → Str) : Nat → List Str → Nat → Nat → Nat →
    Option (List AVal × Nat × Nat × Option Int)
  | 0, _, _, _, _ => none
  | fuel + 1, lines, idx, depth, ctr =>
    match lines[idx]? with
    | none => some ([], idx, ctr, none)
    | some line =>
      if (trimSpace line).isEmpty then some ([], idx + 1, ctr, none)
      else
        let currentIndent := GetIndentLevel line
        let trimmedLine := trimLeftSpTab line
        if currentIndent < depth then some ([], idx, ctr, none)
        else if depth < currentIndent then some ([], idx, ctr, none)
        else
          match reMatch OrderedItemRe trimmedLine with
          | none => some ([], idx, ctr, none)
          | some caps =>
            let myNum := (scanGoInt (caps.getD 0 [])).getD 1
            match parseListItemF gen fuel lines idx depth ctr with
            | none => none
            | some (itemContent, endIdx, ctr') =>
              let item := AVal.obj [("type".data, .s "listItem".data),
                ("content".data, .arr itemContent)]
              match orderedLoopF gen fuel lines endIdx depth ctr' with
              | none => none
              | some (items, endIdx2, ctr2, _) =>
                some (item :: items, endIdx2, ctr2, some myNum)
termination_by structural f => f

/-- Model of `parseOrderedList`. -/
def parseOrderedListF (gen : Nat → Str) : Nat → List Str → Nat → Nat → Nat →
    Option (Option AVal × Nat × Nat)
  | 0, _, _, _, _ => none
  | fuel + 1, lines, startIdx, depth, ctr =>
    match orderedLoopF gen fuel lines startIdx depth ctr with
    | none => none
    | some (items, endIdx, ctr', firstNum) =>
      if items.isEmpty then some (none, startIdx, ctr')
      else
        let startOrder := firstNum.getD 1
        let base := [("type".data, AVal.s "orderedList".data),
          ("content".data, AVal.arr items)]
        let node :=
          if startOrder ≠ 1 then
            AVal.obj (base ++ [("attrs".data, AVal.obj [("order".data, AVal.i startOrder)])])
          else AVal.obj base
        some (some node, endIdx, ctr')
termination_by structural f => f

/-- Model of `parseListItem`: the marker line's trailing text becomes a paragraph;
deeper lines attach nested bullet/ordered/task lists. -/
def parseListItemF (gen : Nat → Str) : Nat → List Str → Nat → Nat → Nat →
    Option (List AVal × Nat × Nat)
  | 0, _, _, _, _ => none
  | fuel + 1, lines, startIdx, depth, ctr =>
    let line := lines.getD startIdx []
    let trimmedLine := trimLeftSpTab line
    let itemText :=
      if startsWith "- ".data trimmedLine || startsWith "* ".data trimmedLine
          || startsWith "+ ".data trimmedLine then
        trimSpace (trimmedLine.drop 2)
      else
        match indexOfSub ". ".data trimmedLine with
        | some pos => trimSpace (trimmedLine.drop (pos + 2))
        | none => []
    let ic := parseInlineContent gen itemText ctr
    let content := [AVal.obj [("type".data, .s "paragraph".data),
      ("content".data, .arr ic.1)]]
    match listItemNestedF gen fuel lines (startIdx + 1) depth ic.2 with
    | none => none
    | some (nested, endIdx, ctr') => some (content ++ nested, endIdx, ctr')
termination_by structural f => f

/-- The nested-content loop of `parseListItem`.  NOTE: when the next line is
indented two or more levels deeper, the nested `parseBulletList` /
`parseOrderedList` call consumes nothing and returns `endIdx = i`, so this
loop repeats the same index and only the fuel decreases — this models the
source's infinite loop (see C2). -/
def listItemNestedF (gen : Nat → Str) : Nat → List Str → Nat → Nat → Nat →
    Option (List AVal × Nat × Nat)
  | 0, _, _, _, _ => none
  | fuel + 1, lines, idx, depth, ctr =>
    match lines[idx]? with
    | none => some ([], idx, ctr)
    | some nextLine =>
      if (trimSpace nextLine).isEmpty then listItemNestedF gen fuel lines (idx + 1) depth ctr
      else
        let nextIndent := GetIndentLevel nextLine
        if nextIndent < depth + 1 then some ([], idx, ctr)
        else
          let trimmedNext := trimLeftSpTab nextLine
          if startsWith "- ".data trimmedNext || startsWith "* ".data trimmedNext
              || startsWith "+ ".data trimmedNext then
            match parseBulletListF gen fuel lines idx (depth + 1) ctr with
            | none => none
            | some (nodeOpt, endIdx, ctr') =>
              match listItemNestedF gen fuel lines endIdx depth ctr' with
              | none => none
              | some (rest, endIdx2, ctr2) =>
                some ((match nodeOpt with | some nl => [nl] | none => []) ++ rest, endIdx2, ctr2)
          else if (OrderedGuardRe trimmedNext).isSome then
            match parseOrderedListF gen fuel lines idx (depth + 1) ctr with
            | none => none
            | some (nodeOpt, endIdx, ctr') =>
              match listItemNestedF gen fuel lines endIdx depth ctr' with
              | none => none
              | some (rest, endIdx2, ctr2) =>
                some ((match nodeOpt with | some nl => [nl] | none => []) ++ rest, endIdx2, ctr2)
          else if (TaskItemRe trimmedNext).isSome then
            match parseTaskListF gen fuel lines idx ctr with
            | none => none
            | some (node, endIdx, ctr') =>
              match listItemNestedF gen fuel lines endIdx depth ctr' with
              | none => none
              | some (rest, endIdx2, ctr2) => some (node :: rest, endIdx2, ctr2)
          else some ([], idx, ctr)

end

/-- Model of `parseMarkdownDocument`. -/
def parseMarkdownDocumentF (gen : Nat → Str) (fuel : Nat) (text : Str) (ctr : Nat) :
    Option AVal :=
  match parseBlocksF gen fuel (splitCh '\n' text) 0 none [] ctr with
  | none => none
  | some (content, _) =>
    some (.obj [("type".data, .s "doc".data), ("version".data, .i 1),
      ("content".data, .arr content)])

/-- Model of `FromMarkdown` (with fuel and an id stream for `GenerateLocalID`). -/
def FromMarkdownF (gen : Nat → Str) (fuel : Nat) (text : Str) : Option AVal :=
  parseMarkdownDocumentF gen fuel text 0

/-! ## Renderer evaluation lemmas

`renderADFNode` and its helpers are well-founded recursions, so concrete
values are computed through the equations below rather than by `rfl`. -/

/-- The loop inlined in `renderContent` equals `renderContentChildren`. -/
theorem renderContentChildren_eq_flatten (xs : List AVal) :
    renderContentChildren xs
      = List.flatten (xs.map (fun c => if c.isObj then renderADFNode c 0 else [])) := by
  induction xs with
  | nil => rfl
  | cons c rest ih => simp [renderContentChildren, ih]

/-- The loop inlined in `renderBlockContent` equals `renderBlockChildren`. -/
theorem renderBlockChildren_eq_filter (xs : List AVal) :
    renderBlockChildren xs
      = List.filter (fun s => !List.isEmpty s)
          (xs.map (fun c => if c.isObj then renderADFNode c 0 else [])) := by
  induction xs with
  | nil => rfl
  | cons c rest ih =>
    by_cases hc : c.isObj
    · by_cases he : (renderADFNode c 0).isEmpty
      · simp [renderBlockChildren, hc, he, ih, List.filter]
      · simp [renderBlockChildren, hc, he, ih, List.filter]
    · simp [renderBlockChildren, hc, ih, List.filter, List.isEmpty]

/-- Model of `renderContent` on a node with a `content` array. -/
theorem renderContent_arr (node : AVal) (xs : List AVal)
    (h : asArr (getKey node "content".data) = some xs) :
    renderContent node = renderContentChildren xs := by
  rw [renderContent.eq_def]
  split
  · rename_i heq
    rw [heq] at h
    exact absurd h (by simp)
  · rename_i xs' heq
    rw [heq] at h
    injection h with h2
    subst h2
    rw [renderContentChildren_eq_flatten]
    congr 1
    simp

/-- Model of `renderContent` on a node without a `content` array. -/
theorem renderContent_none (node : AVal)
    (h : asArr (getKey node "content".data) = none) :
    renderContent node = [] := by
  rw [renderContent.eq_def]
  split
  · rfl
  · rename_i xs' heq
    rw [heq] at h
    cases h

/-- Model of `renderBlockContent` on a node with a `content` array. -/
theorem renderBlockContent_arr (node : AVal) (xs : List AVal)
    (h : asArr (getKey node "content".data) = some xs) :
    renderBlockContent node = joinSep "\n\n".data (renderBlockChildren xs) := by
  rw [renderBlockContent.eq_def]
  split
  · rename_i heq
    rw [heq] at h
    exact absurd h (by simp)
  · rename_i xs' heq
    rw [heq] at h
    injection h with h2
    subst h2
    rw [renderBlockChildren_eq_filter]
    congr 2
    simp

/-- Model of `renderADFNode` dispatch: `text` nodes. -/
theorem renderADFNode_text (node : AVal) (d : Nat)
    (hty : getS node "type".data = "text".data) :
    renderADFNode node d = renderText node := by
  simp only [renderADFNode, hty]
  repeat rw [if_neg (by decide)]
  first
    | rw [if_pos (by decide)]
    | rw [if_pos trivial]
    | rfl

/-- Model of `renderADFNode` dispatch: `paragraph` nodes. -/
theorem renderADFNode_paragraph (node : AVal) (d : Nat)
    (hty : getS node "type".data = "paragraph".data) :
    renderADFNode node d = renderParagraph node := by
  simp only [renderADFNode, hty]
  repeat rw [if_neg (by decide)]
  first
    | rw [if_pos (by decide)]
    | rw [if_pos trivial]
    | rfl

/-- Model of `renderADFNode` dispatch: `heading` nodes. -/
theorem renderADFNode_heading (node : AVal) (d : Nat)
    (hty : getS node "type".data = "heading".data) :
    renderADFNode node d = renderHeading node := by
  simp only [renderADFNode, hty]
  repeat rw [if_neg (by decide)]
  first
    | rw [if_pos (by decide)]
    | rw [if_pos trivial]
    | rfl

/-- The node types `renderADFNode` dispatches on, in source order. -/
def recognizedTypes : List Str :=
  ["paragraph".data, "text".data, "hardBreak".data, "heading".data, "bulletList".data,
   "orderedList".data, "taskList".data, "listItem".data, "taskItem".data, "codeBlock".data,
   "blockquote".data, "rule".data, "panel".data, "expand".data, "nestedExpand".data,
   "table".data, "mediaSingle".data, "mediaGroup".data, "media".data, "emoji".data,
   "mention".data, "status".data, "date".data, "inlineCard".data]

/-- Model of `renderADFNode` dispatch: nodes of unrecognized type fall through to
`renderContent`. -/
theorem renderADFNode_unknown (node : AVal) (d : Nat)
    (h : getS node "type".data ∉ recognizedTypes) :
    renderADFNode node d = renderContent node := by
  simp only [recognizedTypes, List.mem_cons, List.not_mem_nil, or_false, not_or] at h
  obtain ⟨h1, h2, h3, h4, h5, h6, h7, h8, h9, h10, h11, h12, h13, h14, h15, h16,
    h17, h18, h19, h20, h21, h22, h23, h24⟩ := h
  simp only [renderADFNode]
  rw [if_neg h1, if_neg h2, if_neg h3, if_neg h4, if_neg h5, if_neg h6, if_neg h7,
    if_neg h8, if_neg h9, if_neg h10, if_neg h11, if_neg h12, if_neg h13]
  rw [if_neg (by simp [h14, h15])]
  rw [if_neg h16, if_neg h17, if_neg h18, if_neg h19, if_neg h20, if_neg h21,
    if_neg h22, if_neg h23, if_neg h24]

/-! ## Claims -/

/-- A concrete id stream for closed statements. -/
def idStream : Nat → Str := fun n => 'g' :: natDigits n

/-! ### C2: the input on which the parser loops forever -/

/-- The lines of `"- a\n    - b"`: a bullet item with a follow-up line
indented four spaces (two levels). -/
def c2lines : List Str := ["- a".data, "    - b".data]

/-- The nested-content loop of `parseListItem` never finishes on `c2lines`:
at index 1 the line is two levels deeper, `parseBulletList` at depth 1
refuses it (`currentIndent > expectedIndent`) and consumes nothing, and the
loop retries the same index; only the fuel ever decreases. -/
theorem c2_listItemNested_diverges (gen : Nat → Str) :
    ∀ (f ctr : Nat), listItemNestedF gen f c2lines 1 0 ctr = none := by
  intro f
  induction f with
  | zero => intro ctr; rfl
  | succ f ih =>
    intro ctr
    match f, ih with
    | 0, _ => rfl
    | 1, _ => rfl
    | g + 2, ih =>
      have hstep : listItemNestedF gen (g + 2 + 1) c2lines 1 0 ctr
          = (match listItemNestedF gen (g + 2) c2lines 1 0 ctr with
             | none => none
             | some (rest, endIdx2, ctr2) => some ([] ++ rest, endIdx2, ctr2)) := rfl
      rw [hstep, ih ctr]

theorem c2_listItem_diverges (gen : Nat → Str) :
    ∀ (f ctr : Nat), parseListItemF gen f c2lines 0 0 ctr = none := by
  intro f ctr
  cases f with
  | zero => rfl
  | succ f =>
    have hstep : parseListItemF gen (f + 1) c2lines 0 0 ctr
        = (match listItemNestedF gen f c2lines 1 0 ctr with
           | none => none
           | some (nested, endIdx, ctr') =>
             some ([AVal.obj [("type".data, .s "paragraph".data),
               ("content".data, .arr [textAV "a".data])]] ++ nested, endIdx, ctr')) := rfl
    rw [hstep, c2_listItemNested_diverges gen f ctr]

theorem c2_bulletLoop_diverges (gen : Nat → Str) :
    ∀ (f ctr : Nat), bulletLoopF gen f c2lines 0 0 ctr = none := by
  intro f ctr
  cases f with
  | zero => rfl
  | succ f =>
    have hstep : bulletLoopF gen (f + 1) c2lines 0 0 ctr
        = (match parseListItemF gen f c2lines 0 0 ctr with
           | none => none
           | some (itemContent, endIdx, ctr') =>
             match bulletLoopF gen f c2lines endIdx 0 ctr' with
             | none => none
             | some (items, endIdx2, ctr2) =>
               some (AVal.obj [("type".data, .s "listItem".data),
                 ("content".data, .arr itemContent)] :: items, endIdx2, ctr2)) := rfl
    rw [hstep, c2_listItem_diverges gen f ctr]

theorem c2_bulletList_diverges (gen : Nat → Str) :
    ∀ (f ctr : Nat), parseBulletListF gen f c2lines 0 0 ctr = none := by
  intro f ctr
  cases f with
  | zero => rfl
  | succ f =>
    have hstep : parseBulletListF gen (f + 1) c2lines 0 0 ctr
        = (match bulletLoopF gen f c2lines 0 0 ctr with
           | none => none
           | some (items, endIdx, ctr') =>
             if items.isEmpty then some (none, 0, ctr')
             else some (some (.obj [("type".data, .s "bulletList".data),
               ("content".data, .arr items)]), endIdx, ctr')) := rfl
    rw [hstep, c2_bulletLoop_diverges gen f ctr]

theorem c2_blocks_diverges (gen : Nat → Str) :
    ∀ (f ctr : Nat), parseBlocksF gen f c2lines 0 none [] ctr = none := by
  intro f ctr
  cases f with
  | zero => rfl
  | succ f =>
    have hstep : parseBlocksF gen (f + 1) c2lines 0 none [] ctr
        = (match parseBulletListF gen f c2lines 0 0 ctr with
           | none => none
           | some (nodeOpt, endIdx, ctr') =>
             parseBlocksF gen f c2lines endIdx none
               (match nodeOpt with | some node => [] ++ [node] | none => []) ctr') := rfl
    rw [hstep, c2_bulletList_diverges gen f ctr]

/-- C2: the claim that parsing terminates on every finite input is wrong:
`FromMarkdown` never returns on `"- a\n    - b"` (a bullet item whose next
line is indented four spaces).  `parseListItem` sees the deeper line, calls
`parseBulletList` at depth 1, which rejects the two-levels-deeper line and
returns `(nil, startIdx)` without advancing, and `parseListItem` retries the
same index forever.  In the fuel model: for every fuel the parse runs out of
fuel, for every id stream. -/
theorem C2_parser_diverges (gen : Nat → Str) (fuel : Nat) :
    FromMarkdownF gen fuel "- a\n    - b".data = none := by
  have hstep : FromMarkdownF gen fuel "- a\n    - b".data
      = (match parseBlocksF gen fuel c2lines 0 none [] 0 with
         | none => none
         | some (content, _) =>
           some (.obj [("type".data, .s "doc".data), ("version".data, .i 1),
             ("content".data, .arr content)])) := rfl
  rw [hstep, c2_blocks_diverges gen fuel 0]

/-! ### C6: timestamp round-trip -/

/-- C6: `formatTimestamp(parseTimestamp("2024-01-01")) == "2024-01-01"`;
moreover `parseTimestamp` passes all-digit strings of length ≥ 10 through
unchanged, and passes input that parses neither as an ISO date nor as an
RFC 3339 date-time through verbatim (statements for already-trimmed input,
since the source trims first). -/
theorem C6_timestamp_roundtrip :
    FormatTimestamp (ParseTimestamp "2024-01-01".data) = "2024-01-01".data
    ∧ (∀ s : Str, trimSpace s = s → 10 ≤ s.length → IsAllDigits s = true →
        ParseTimestamp s = s)
    ∧ (∀ s : Str, trimSpace s = s → ¬(10 ≤ s.length ∧ IsAllDigits s = true) →
        parseISODate s = none → parseRFC3339 s = none → ParseTimestamp s = s) := by
  refine ⟨rfl, ?_, ?_⟩
  · intro s hts hlen hdig
    simp only [ParseTimestamp, hts]
    rw [if_pos]
    simp [hdig]
    omega
  · intro s hts hn hiso hrfc
    simp only [ParseTimestamp, hts, hiso, hrfc]
    rw [if_neg]
    intro hcond
    simp only [Bool.and_eq_true, decide_eq_true_eq] at hcond
    exact hn ⟨by exact_mod_cast hcond.1, hcond.2⟩

/-- Witness for C6's quantified conjuncts at concrete inputs. -/
theorem C6_timestamp_roundtrip_witness :
    ParseTimestamp "1704067200000".data = "1704067200000".data
    ∧ ParseTimestamp "not-a-date".data = "not-a-date".data :=
  ⟨C6_timestamp_roundtrip.2.1 _ (by decide) (by decide) (by decide),
   C6_timestamp_roundtrip.2.2 _ (by decide) (by decide) rfl rfl⟩

/-! ### C9: pending media placeholders -/

theorem startsWith_append (p r : Str) : startsWith p (p ++ r) = true := by
  induction p with
  | nil => rfl
  | cons c cs ih => simp [startsWith, ih]

theorem findIdx_sep {a : Str} (rest : Str) (ha : ':' ∉ a) :
    (a ++ ':' :: rest).findIdx? (· = ':') = some a.length := by
  induction a with
  | nil => simp [List.findIdx?_cons]
  | cons c cs ih =>
    have hc : c ≠ ':' := fun h => ha (h ▸ List.mem_cons_self c cs)
    have hcs : ':' ∉ cs := fun h => ha (List.mem_cons_of_mem c h)
    simp [List.findIdx?_cons, hc, ih hcs]

theorem splitNCh_step (n : Nat) (a rest : Str) (ha : ':' ∉ a) :
    splitNCh ':' (n + 2) (a ++ ':' :: rest) = a :: splitNCh ':' (n + 1) rest := by
  have h1 : (a ++ ':' :: rest).findIdx? (· = ':') = some a.length := findIdx_sep rest ha
  have ht : (a ++ ':' :: rest).take a.length = a := by
    have := List.take_left a (':' :: rest)
    simpa using this
  have hd : (a ++ ':' :: rest).drop (a.length + 1) = rest := by
    have he : a ++ ':' :: rest = (a ++ [':']) ++ rest := by simp
    rw [he, show a.length + 1 = (a ++ [':']).length by simp, List.drop_left]
  simp only [splitNCh, h1, ht, hd]

theorem splitNCh_triple (a b c : Str) (ha : ':' ∉ a) (hb : ':' ∉ b) :
    splitNCh ':' 3 (a ++ ':' :: (b ++ ':' :: c)) = [a, b, c] := by
  rw [show (3 : Nat) = 1 + 2 from rfl, splitNCh_step 1 a _ ha,
    show (1 + 1 : Nat) = 0 + 2 from rfl, splitNCh_step 0 b c hb]
  rfl

/-- C9: a standalone image whose source is not a reserved
`jira-media:id:collection:type` reference becomes a `mediaSingle` whose
media node carries `_source` equal to the literal source and a freshly
generated id `__PENDING_UPLOAD_<id>__` — non-empty and always carrying the
`__PENDING_UPLOAD_` prefix that the attachment layer uses to tell pending
placeholders apart from resolved attachment identifiers; a proper reserved
triple instead yields a resolved media node with id/collection/type set. -/
theorem C9_pending_media (gen : Nat → Str) (ctr : Nat) (alt src : Str)
    (hsrc : startsWith "jira-media:".data src = false) :
    (parseStandaloneImage gen alt src ctr =
      (.obj [("type".data, .s "mediaSingle".data),
        ("attrs".data, .obj [("layout".data, .s "align-start".data)]),
        ("content".data, .arr [.obj [("type".data, .s "media".data),
          ("attrs".data, .obj [
            ("id".data, .s ("__PENDING_UPLOAD_".data ++ gen ctr ++ "__".data)),
            ("type".data, .s "file".data),
            ("alt".data, .s alt),
            ("_source".data, .s src)])]])], ctr + 1))
    ∧ ("__PENDING_UPLOAD_".data ++ gen ctr ++ "__".data) ≠ []
    ∧ startsWith "__PENDING_UPLOAD_".data
        ("__PENDING_UPLOAD_".data ++ gen ctr ++ "__".data) = true
    ∧ (∀ (a b c alt2 : Str) (ctr2 : Nat), ':' ∉ a → ':' ∉ b →
        parseMediaFromImage gen alt2 ("jira-media:".data ++ (a ++ ':' :: (b ++ ':' :: c))) ctr2
          = (.obj [("type".data, .s "media".data),
              ("attrs".data, .obj [
                ("id".data, .s a),
                ("collection".data, .s b),
                ("type".data, .s c),
                ("alt".data, .s alt2)])], ctr2)) := by
  refine ⟨?_, by simp, startsWith_append _ _, ?_⟩
  · simp only [parseStandaloneImage, parseMediaFromImage, hsrc, Bool.false_eq_true, if_false]
  · intro a b c alt2 ctr2 ha hb
    simp only [parseMediaFromImage, startsWith_append, if_pos, trimPrefixS]
    rw [List.drop_left]
    rw [splitNCh_triple a b c ha hb]
    simp

/-- Witness for C9 at a concrete source and id stream. -/
theorem C9_pending_media_witness :
    parseStandaloneImage idStream "cat".data "https://x/cat.png".data 0 =
      (.obj [("type".data, .s "mediaSingle".data),
        ("attrs".data, .obj [("layout".data, .s "align-start".data)]),
        ("content".data, .arr [.obj [("type".data, .s "media".data),
          ("attrs".data, .obj [
            ("id".data, .s ("__PENDING_UPLOAD_".data ++ idStream 0 ++ "__".data)),
            ("type".data, .s "file".data),
            ("alt".data, .s "cat".data),
            ("_source".data, .s "https://x/cat.png".data)])]])], 1)
    ∧ parseMediaFromImage idStream "cat".data
        ("jira-media:".data ++ ("abc".data ++ ':' :: ("col".data ++ ':' :: "file".data))) 0
      = (.obj [("type".data, .s "media".data),
          ("attrs".data, .obj [
            ("id".data, .s "abc".data),
            ("collection".data, .s "col".data),
            ("type".data, .s "file".data),
            ("alt".data, .s "cat".data)])], 0) :=
  ⟨(C9_pending_media idStream 0 "cat".data "https://x/cat.png".data (by decide)).1,
   (C9_pending_media idStream 0 "x".data "x".data (by decide)).2.2.2
     "abc".data "col".data "file".data "cat".data 0 (by decide) (by decide)⟩

namespace ADF

/-- A text node carrying only `type` and `text`. -/
def textNodeOf (t : Str) : AVal :=
  .obj [("type".data, .s "text".data), ("text".data, .s t)]

/-- A parsed table cell: the given cell type around a paragraph around a
single text node. -/
def cellNodeOf (cellType t : Str) : AVal :=
  .obj [("type".data, .s cellType), ("attrs".data, .obj []),
    ("content".data, .arr [.obj [("type".data, .s "paragraph".data),
      ("content".data, .arr [textNodeOf t])]])]

/-- A parsed table row. -/
def rowNodeOf (cells : List AVal) : AVal :=
  .obj [("type".data, .s "tableRow".data), ("content".data, .arr cells)]

/-- A parsed table. -/
def tableNodeOf (rows : List AVal) : AVal :=
  .obj [("type".data, .s "table".data),
    ("attrs".data, .obj [("isNumberColumnEnabled".data, .b false),
      ("layout".data, .s "default".data)]),
    ("content".data, .arr rows)]

/-- A parsed document with no blocks. -/
def emptyDocNode : AVal :=
  .obj [("type".data, .s "doc".data), ("version".data, .i 1), ("content".data, .arr [])]

/-- All cells of a (trimmed) table line consist solely of dashes. -/
def cellsAllDash (line : Str) : Bool :=
  (parseTableRow (trimSpace line)).all (fun c => !c.isEmpty && c.all (fun ch => ch = '-'))

/-- C5: table separator stripping. The spec says a row is stripped iff its
cells are all dash-only. In the code a row is stripped iff the trimmed line
contains `---` anywhere: `| a---b | c |` is stripped although its cells are
not dash-only (and the following line becomes the header row), while
`| -- | -- |` has all-dash cells but is kept as a header row. The general
conjunct characterizes the actual strip rule of the row loop. -/
theorem C5_table_separator_strip :
    (cellsAllDash "| a---b | c |".data = false
      ∧ parseTableF idStream 5 ["| a---b | c |".data, "| d | e |".data] 0 0
          = some (some (tableNodeOf [rowNodeOf [cellNodeOf "tableHeader".data "d".data,
              cellNodeOf "tableHeader".data "e".data]]), 2, 0))
    ∧ (cellsAllDash "| -- | -- |".data = true
      ∧ parseTableF idStream 5 ["| -- | -- |".data] 0 0
          = some (some (tableNodeOf [rowNodeOf [cellNodeOf "tableHeader".data "--".data,
              cellNodeOf "tableHeader".data "--".data]]), 1, 0))
    ∧ (∀ (gen : Nat → Str) (fuel : Nat) (lines : List Str) (idx : Nat)
        (isFirst : Bool) (ctr : Nat) (line : Str),
        lines[idx]? = some line →
        startsWith "|".data line = true →
        (containsSub "---".data (trimSpace line) = true →
          tableLoopF gen (fuel + 1) lines idx isFirst ctr
            = tableLoopF gen fuel lines (idx + 1) isFirst ctr)
        ∧ (containsSub "---".data (trimSpace line) = false →
          tableLoopF gen (fuel + 1) lines idx isFirst ctr
            = (let rc := tableCellsParse gen (parseTableRow (trimSpace line))
                 (if isFirst then "tableHeader".data else "tableCell".data) ctr
               match tableLoopF gen fuel lines (idx + 1) false rc.2 with
               | none => none
               | some (rows, endIdx, ctr2) =>
                 some (rowNodeOf rc.1 :: rows, endIdx, ctr2)))) := by
  refine ⟨⟨by decide, rfl⟩, ⟨by decide, rfl⟩, ?_⟩
  intro gen fuel lines idx isFirst ctr line hline hpipe
  constructor
  · intro hsep
    simp [tableLoopF, hline, hpipe, hsep]
  · intro hsep
    simp [tableLoopF, hline, hpipe, hsep, rowNodeOf]



theorem C5_table_separator_strip_witness :
    tableLoopF idStream 4 ["| --- |".data] 0 true 0
      = tableLoopF idStream 3 ["| --- |".data] 1 true 0 :=
  (C5_table_separator_strip.2.2 idStream 3 ["| --- |".data] 0 true 0
    "| --- |".data rfl (by decide)).1 (by decide)

/-- A text node with marks. -/
def mTextNode (t : Str) (marks : List AVal) : AVal :=
  .obj [("type".data, .s "text".data), ("text".data, .s t),
    ("marks".data, .arr marks)]

def codeMark : AVal := .obj [("type".data, .s "code".data)]
def linkMark : AVal := .obj [("type".data, .s "link".data),
  ("attrs".data, .obj [("href".data, .s "h".data)])]
def emMark : AVal := .obj [("type".data, .s "em".data)]
def strongMark : AVal := .obj [("type".data, .s "strong".data)]
def strikeMark : AVal := .obj [("type".data, .s "strike".data)]
def underlineMark : AVal := .obj [("type".data, .s "underline".data)]
def textColorMark : AVal := .obj [("type".data, .s "textColor".data),
  ("attrs".data, .obj [("color".data, .s "red".data)])]
def bgColorMark : AVal := .obj [("type".data, .s "backgroundColor".data),
  ("attrs".data, .obj [("color".data, .s "blue".data)])]
def subMark : AVal := .obj [("type".data, .s "subsup".data),
  ("attrs".data, .obj [("type".data, .s "sub".data)])]

/-- All nine mark kinds in the fixed source nesting order. -/
def marksSourceOrder : List AVal :=
  [codeMark, linkMark, emMark, strongMark, strikeMark, underlineMark,
   textColorMark, bgColorMark, subMark]

/-- The same nine marks listed in the reverse order. -/
def marksScrambled : List AVal := marksSourceOrder.reverse

/-- The fully nested rendering those nine marks always produce. -/
def nestAll (t : Str) : Str :=
  "<sub><mark style=\"background:blue\">\x7bcolor:red\x7d<u>~~***[".data
    ++ bqChar :: t ++ bqChar :: "](h)***~~</u>\x7bcolor\x7d</mark></sub>".data

/-- C7: mark nesting order is fixed, independent of the order the marks
appear on the node: strong+em renders `***t***` in either order, and all
nine mark kinds produce the same fixed nesting whether listed in source
order or fully reversed. -/
theorem C7_mark_order (t : Str) (h : t.isEmpty = false) :
    (renderText (mTextNode t [strongMark, emMark]) = "***".data ++ t ++ "***".data)
    ∧ (renderText (mTextNode t [emMark, strongMark]) = "***".data ++ t ++ "***".data)
    ∧ (applyMarks t marksSourceOrder = nestAll t)
    ∧ (applyMarks t marksScrambled = nestAll t) := by
  refine ⟨?_, ?_, ?_, ?_⟩
  · simp [renderText, mTextNode, getS, getKey, lookup, asStr, asArr,
      applyMarks, markStep, strongMark, emMark, h]
  · simp [renderText, mTextNode, getS, getKey, lookup, asStr, asArr,
      applyMarks, markStep, strongMark, emMark, h]
  · simp [applyMarks, markStep, marksSourceOrder, codeMark, linkMark, emMark,
      strongMark, strikeMark, underlineMark, textColorMark, bgColorMark,
      subMark, nestAll, lookup, asStr, asObj, bqChar]
  · simp [applyMarks, markStep, marksScrambled, marksSourceOrder, codeMark,
      linkMark, emMark, strongMark, strikeMark, underlineMark, textColorMark,
      bgColorMark, subMark, nestAll, lookup, asStr, asObj, bqChar]

theorem C7_mark_order_witness :
    renderText (mTextNode "x".data [strongMark, emMark])
      = "***".data ++ "x".data ++ "***".data :=
  (C7_mark_order "x".data (by decide)).1



/-- Model of `renderText` on a plain text node. -/
theorem renderText_plain (t : Str) (h : t.isEmpty = false) :
    renderText (textNodeOf t) = t := by
  simp [renderText, textNodeOf, getS, getKey, lookup, asStr, asArr, h]

/-- The content loop on a single plain text node. -/
theorem renderContentChildren_single_text (t : Str) (h : t.isEmpty = false) :
    renderContentChildren [textNodeOf t] = t := by
  have hd : renderADFNode (textNodeOf t) 0 = renderText (textNodeOf t) :=
    renderADFNode_text _ 0 rfl
  have ht := renderText_plain t h
  simp only [renderContentChildren, hd, ht]
  simp [textNodeOf, AVal.isObj]

/-- The clamp applied to the heading level at render time. -/
def clampLvl (lvl : Int) : Int := if lvl < 1 then 1 else if lvl > 6 then 6 else lvl

/-- A heading node with a float `level` attribute over a single text node. -/
def hNodeOf (lvl : Int) (t : Str) : AVal :=
  .obj [("type".data, .s "heading".data),
    ("attrs".data, .obj [("level".data, .f lvl)]),
    ("content".data, .arr [textNodeOf t])]

/-- C3: the spec says out-of-range heading levels clamp at parse time and
`#x` parses to a paragraph. In the code `parseHeading` returns nil for
level > 6 and for `#` without a following space, and `parseBlocks` still
consumes the line, so both inputs parse to a document with no content at
all; the clamp into [1,6] happens at render time, in `renderHeading`. -/
theorem C3_heading_clamp :
    (FromMarkdownF idStream 20 "########## x".data = some emptyDocNode)
    ∧ (FromMarkdownF idStream 20 "#x".data = some emptyDocNode)
    ∧ (∀ (lvl : Int) (t : Str), t.isEmpty = false →
        renderHeading (hNodeOf lvl t)
          = repeatS ['#'] (clampLvl lvl).toNat ++ ' ' :: t) := by
  refine ⟨rfl, rfl, ?_⟩
  intro lvl t h
  have hc : renderContent (hNodeOf lvl t) = t := by
    rw [renderContent_arr (hNodeOf lvl t) [textNodeOf t] rfl]
    exact renderContentChildren_single_text t h
  have h1 : asObj (getKey (hNodeOf lvl t) "attrs".data)
      = some [("level".data, AVal.f lvl)] := rfl
  have h2 : asFloat (lookup "level".data [("level".data, AVal.f lvl)])
      = some lvl := rfl
  simp only [renderHeading, h1, h2, hc]
  simp [clampLvl]

theorem C3_heading_clamp_witness :
    ("x".data.isEmpty = false)
    ∧ renderHeading (hNodeOf 10 "x".data)
        = repeatS ['#'] (clampLvl 10).toNat ++ ' ' :: "x".data :=
  ⟨by decide, C3_heading_clamp.2.2 10 "x".data (by decide)⟩

/-- A node of a type the renderer does not recognize. -/
def unknownNode : AVal :=
  .obj [("type".data, .s "custom".data),
    ("content".data, .arr [textNodeOf "hi".data])]

/-- C10: nodes of unrecognized type fall through to `renderContent`: the
concatenation of the children's renderings, the empty string when there is
no `content` array, so rendering never fails on them. -/
theorem C10_unrecognized_renders_children (node : AVal) (d : Nat)
    (h : getS node "type".data ∉ recognizedTypes) :
    renderADFNode node d = renderContent node
      ∧ (asArr (getKey node "content".data) = none → renderADFNode node d = [])
      ∧ (∀ xs, asArr (getKey node "content".data) = some xs →
          renderADFNode node d = renderContentChildren xs) := by
  refine ⟨renderADFNode_unknown node d h, ?_, ?_⟩
  · intro hn
    rw [renderADFNode_unknown node d h, renderContent_none node hn]
  · intro xs hx
    rw [renderADFNode_unknown node d h, renderContent_arr node xs hx]

theorem C10_unrecognized_renders_children_witness :
    (getS unknownNode "type".data ∉ recognizedTypes)
    ∧ renderADFNode unknownNode 0 = renderContentChildren [textNodeOf "hi".data] :=
  ⟨by decide,
   (C10_unrecognized_renders_children unknownNode 0 (by decide)).2.2
     [textNodeOf "hi".data] rfl⟩

namespace ADF

/-- Last character of a line is not a space or tab. -/
def lineOk (l : Str) : Bool :=
  match l.getLast? with
  | none => true
  | some c => !isSpTab c

/-- No line of `s` ends in a space or tab. -/
def noTrailWS (s : Str) : Bool := (splitCh '\n' s).all lineOk

/-- Neither the first nor the last character of `s` is whitespace. -/
def noEdgeWS (s : Str) : Bool :=
  (match s.head? with | none => true | some c => !isWS c)
    && (match s.getLast? with | none => true | some c => !isWS c)

/-- No space or tab immediately followed by a newline. -/
def pairFree : Str → Bool
  | c :: d :: rest => !(isSpTab c && d = '\n') && pairFree (d :: rest)
  | _ => true

/-- Last character (if any) is not a space or tab. -/
def lastOk (s : Str) : Bool :=
  match s.getLast? with
  | none => true
  | some c => !isSpTab c

theorem trimLeftBy_head (f : Char → Bool) (v : Str) (c : Char)
    (h : (trimLeftBy f v).head? = some c) : f c = false := by
  induction v with
  | nil => simp [trimLeftBy] at h
  | cons x xs ih =>
    by_cases hx : f x
    · exact ih (by simpa [trimLeftBy, hx] using h)
    · simp [trimLeftBy, hx] at h
      simp [← h, hx]

theorem trimLeftBy_isSuffix (f : Char → Bool) (v : Str) :
    trimLeftBy f v <:+ v := by
  induction v with
  | nil => simp [trimLeftBy]
  | cons x xs ih =>
    by_cases hx : f x
    · simp only [trimLeftBy, hx, if_true]
      exact ih.trans (List.suffix_cons x xs)
    · simp [trimLeftBy, hx]

theorem trimRightBy_isPrefix (f : Char → Bool) (s : Str) :
    trimRightBy f s <+: s := by
  have h := trimLeftBy_isSuffix f s.reverse
  have h2 : (trimLeftBy f s.reverse).reverse <+: s.reverse.reverse := by
    exact List.reverse_prefix.mpr (by simpa using h)
  simpa [trimRightBy] using h2

theorem trimRightBy_getLast (f : Char → Bool) (s : Str) (c : Char)
    (h : (trimRightBy f s).getLast? = some c) : f c = false := by
  apply trimLeftBy_head f s.reverse c
  simpa [trimRightBy, List.getLast?_reverse] using h

theorem pairFree_append_left (t r : Str) (h : pairFree (t ++ r) = true) :
    pairFree t = true := by
  induction t with
  | nil => rfl
  | cons x xs ih =>
    match xs, h with
    | [], _ => rfl
    | y :: ys, h =>
      simp only [List.cons_append, pairFree, Bool.and_eq_true] at h ⊢
      exact ⟨h.1, by simpa [pairFree] using ih (by simpa [pairFree] using h.2)⟩

theorem pairFree_prefix (t s : Str) (hp : t <+: s) (h : pairFree s = true) :
    pairFree t = true := by
  obtain ⟨r, rfl⟩ := hp
  exact pairFree_append_left t r h

theorem head?_prefix (t s : Str) (hp : t <+: s) (c : Char)
    (h : t.head? = some c) : s.head? = some c := by
  obtain ⟨r, rfl⟩ := hp
  cases t with
  | nil => simp at h
  | cons x xs => simpa using h

theorem pairFree_trimLeft (f : Char → Bool) (s : Str) (h : pairFree s = true) :
    pairFree (trimLeftBy f s) = true := by
  induction s with
  | nil => rfl
  | cons x xs ih =>
    by_cases hx : f x
    · simp only [trimLeftBy, hx, if_true]
      apply ih
      match xs, h with
      | [], _ => rfl
      | y :: ys, h => exact (Bool.and_eq_true ..).mp h |>.2
    · simpa [trimLeftBy, hx] using h

theorem lastOk_trimLeft (f : Char → Bool) (s : Str) (h : lastOk s = true) :
    lastOk (trimLeftBy f s) = true := by
  induction s with
  | nil => rfl
  | cons x xs ih =>
    by_cases hx : f x
    · simp only [trimLeftBy, hx, if_true]
      apply ih
      cases xs with
      | nil => rfl
      | cons y ys => simpa [lastOk, List.getLast?_cons_cons] using h
    · simpa [trimLeftBy, hx] using h

theorem noNl_pairFree (l : Str) (h : '\n' ∉ l) : pairFree l = true := by
  induction l with
  | nil => rfl
  | cons x xs ih =>
    match xs, h, ih with
    | [], _, _ => rfl
    | y :: ys, h, ih =>
      simp only [pairFree, Bool.and_eq_true]
      refine ⟨?_, ih (by simp at h; simp [h.2.1, h.2.2])⟩
      have : y ≠ '\n' := by simp at h; exact fun he => h.2.1 he.symm
      simp [this]

theorem splitCh_not_mem (sep : Char) (s : Str) :
    ∀ l ∈ splitCh sep s, sep ∉ l := by
  induction s with
  | nil =>
    intro l hl
    simp [splitCh] at hl
    simp [hl]
  | cons c cs ih =>
    intro l hl
    by_cases hc : c = sep
    · simp only [splitCh, hc, if_true] at hl
      rcases List.mem_cons.mp hl with hl | hl
      · simp [hl]
      · exact ih l hl
    · rw [show splitCh sep (c :: cs)
          = (match splitCh sep cs with
             | [] => [[c]]
             | r :: rs => (c :: r) :: rs) from by
            simp [splitCh, hc]] at hl
      cases hrest : splitCh sep cs with
      | nil =>
        rw [hrest] at hl
        simp at hl
        subst hl
        simp
        exact fun he => hc he.symm
      | cons r rs =>
        rw [hrest] at hl
        rcases List.mem_cons.mp hl with hl | hl
        · subst hl
          intro hmem
          rcases List.mem_cons.mp hmem with he | he
          · exact hc he.symm
          · exact ih r (by simp [hrest]) he
        · exact ih l (by simp [hrest, hl])

theorem splitCh_ne_nil (sep : Char) (s : Str) : splitCh sep s ≠ [] := by
  cases s with
  | nil => simp [splitCh]
  | cons c cs =>
    simp only [splitCh]
    by_cases hc : c = sep
    · simp [hc]
    · simp only [hc, if_false]
      cases splitCh sep cs with
      | nil => simp
      | cons r rs => simp

def bridgeOk (a b : Str) : Bool :=
  match a.getLast?, b.head? with
  | some x, some y => !(isSpTab x && y = '\n')
  | _, _ => true

theorem pairFree_append (a b : Str) (ha : pairFree a = true)
    (hb : pairFree b = true) (hbr : bridgeOk a b = true) :
    pairFree (a ++ b) = true := by
  induction a with
  | nil => simpa using hb
  | cons x xs ih =>
    match xs, ha, hbr with
    | [], _, hbr =>
      cases b with
      | nil => rfl
      | cons y ys =>
        simp only [List.singleton_append, pairFree, Bool.and_eq_true]
        exact ⟨by simpa [bridgeOk] using hbr, hb⟩
    | y :: ys, ha, hbr =>
      simp only [List.cons_append, pairFree, Bool.and_eq_true] at ha ⊢
      refine ⟨ha.1, ?_⟩
      have := ih ha.2 (by simpa [bridgeOk, List.getLast?_cons_cons] using hbr)
      simpa using this

theorem getLast?_append_right (a b : Str) (hb : b ≠ []) :
    (a ++ b).getLast? = b.getLast? :=
  List.getLast?_append_of_ne_nil a hb

theorem joinSep_nl_clean (ls : List Str)
    (h : ∀ l ∈ ls, pairFree l = true ∧ lastOk l = true) :
    pairFree (joinSep ['\n'] ls) = true ∧ lastOk (joinSep ['\n'] ls) = true := by
  induction ls with
  | nil => exact ⟨rfl, rfl⟩
  | cons x xs ih =>
    match xs, ih with
    | [], _ => exact h x (by simp)
    | z :: zs, ih =>
      have hx := h x (by simp)
      have hrest := ih (fun l hl => h l (by simp [hl]))
      have hj : joinSep ['\n'] (x :: z :: zs) = x ++ '\n' :: joinSep ['\n'] (z :: zs) := by
        simp [joinSep]
      rw [hj]
      constructor
      · apply pairFree_append x ('\n' :: joinSep ['\n'] (z :: zs)) hx.1
        · cases hjj : joinSep ['\n'] (z :: zs) with
          | nil => rfl
          | cons w ws =>
            simp only [pairFree, Bool.and_eq_true]
            refine ⟨by simp [isSpTab], ?_⟩
            rw [← hjj]
            exact hrest.1
        · simp only [bridgeOk, List.head?_cons]
          cases hg : x.getLast? with
          | none => rfl
          | some g =>
            have := hx.2
            simp only [lastOk, hg] at this
            simp [this]
      · simp only [lastOk]
        rw [getLast?_append_right x _ (by simp)]
        show (match List.getLast? ('\n' :: joinSep ['\n'] (z :: zs)) with
          | none => true
          | some c => !isSpTab c) = true
        cases hjj : joinSep ['\n'] (z :: zs) with
        | nil => rfl
        | cons w ws =>
          have := hrest.2
          simp only [lastOk, hjj] at this ⊢
          simpa [List.getLast?_cons_cons] using this



theorem splitCh_cons_sep (sep : Char) (cs : Str) :
    splitCh sep (sep :: cs) = [] :: splitCh sep cs := by
  simp [splitCh]

theorem splitCh_cons_ne (sep c : Char) (cs : Str) (hc : ¬c = sep) (r0 : Str)
    (rs : List Str) (hr : splitCh sep cs = r0 :: rs) :
    splitCh sep (c :: cs) = (c :: r0) :: rs := by
  simp [splitCh, hc, hr]

theorem pairFree_cons_nl (cs : Str) : pairFree ('\n' :: cs) = pairFree cs := by
  cases cs with
  | nil => rfl
  | cons d rest => simp [pairFree, isSpTab]

theorem lastOk_cons_cons (c d : Char) (cs : Str) :
    lastOk (c :: d :: cs) = lastOk (d :: cs) := by
  simp [lastOk, List.getLast?_cons_cons]

theorem lineOk_cons_cons (c d : Char) (cs : Str) :
    lineOk (c :: d :: cs) = lineOk (d :: cs) := by
  simp [lineOk, List.getLast?_cons_cons]

theorem noTrailWS_eq (s : Str) : noTrailWS s = (pairFree s && lastOk s) := by
  induction s with
  | nil => rfl
  | cons c cs ih =>
    by_cases hc : c = '\n'
    · subst hc
      rw [noTrailWS, splitCh_cons_sep, List.all_cons]
      rw [show lineOk [] = true from rfl, Bool.true_and]
      rw [show (splitCh '\n' cs).all lineOk = noTrailWS cs from rfl, ih]
      rw [pairFree_cons_nl]
      cases cs with
      | nil => rfl
      | cons d rest => rw [lastOk_cons_cons]
    · cases cs with
      | nil =>
        simp only [noTrailWS, splitCh, List.all_cons, List.all_nil]
        simp [hc, lineOk, pairFree, lastOk]
      | cons d rest =>
        by_cases hd : d = '\n'
        · subst hd
          rw [noTrailWS,
            splitCh_cons_ne '\n' c ('\n' :: rest) hc [] (splitCh '\n' rest)
              (splitCh_cons_sep '\n' rest),
            List.all_cons]
          have hihs : noTrailWS ('\n' :: rest) = (pairFree ('\n' :: rest)
              && lastOk ('\n' :: rest)) := ih
          rw [noTrailWS, splitCh_cons_sep, List.all_cons,
            show lineOk [] = true from rfl, Bool.true_and] at hihs
          have hgl : lineOk [c] = !isSpTab c := rfl
          rw [hgl]
          have hpf : pairFree (c :: '\n' :: rest)
              = (!isSpTab c && pairFree ('\n' :: rest)) := by
            simp [pairFree]
          rw [hpf, lastOk_cons_cons, Bool.and_assoc, ← hihs]
        · obtain ⟨r0, rs, hr⟩ : ∃ r0 rs, splitCh '\n' rest = r0 :: rs := by
            cases hx : splitCh '\n' rest with
            | nil => exact absurd hx (splitCh_ne_nil '\n' rest)
            | cons a b => exact ⟨a, b, rfl⟩
          rw [noTrailWS,
            splitCh_cons_ne '\n' c (d :: rest) hc (d :: r0) rs
              (splitCh_cons_ne '\n' d rest hd r0 rs hr),
            List.all_cons, lineOk_cons_cons]
          have hihs : noTrailWS (d :: rest) = (pairFree (d :: rest)
              && lastOk (d :: rest)) := ih
          rw [noTrailWS, splitCh_cons_ne '\n' d rest hd r0 rs hr,
            List.all_cons] at hihs
          have hpf : pairFree (c :: d :: rest) = pairFree (d :: rest) := by
            simp [pairFree, hd]
          rw [hpf, lastOk_cons_cons, ← hihs]

theorem isSpTab_isWS (c : Char) (h : isSpTab c = true) : isWS c = true := by
  simp only [isSpTab, Bool.or_eq_true] at h
  rcases h with h | h <;> simp [isWS, h]

theorem NormalizeWhitespace_clean (text : Str) :
    noTrailWS (NormalizeWhitespace text) = true
      ∧ noEdgeWS (NormalizeWhitespace text) = true := by
  have hpieces : ∀ l ∈ (splitCh '\n' (collapseNL text)).map (trimRightBy isSpTab),
      pairFree l = true ∧ lastOk l = true := by
    intro l hl
    obtain ⟨l0, hl0, rfl⟩ := List.mem_map.mp hl
    constructor
    · apply noNl_pairFree
      intro hmem
      exact splitCh_not_mem '\n' (collapseNL text) l0 hl0
        ((trimRightBy_isPrefix isSpTab l0).sublist.subset hmem)
    · simp only [lastOk]
      cases hg : (trimRightBy isSpTab l0).getLast? with
      | none => rfl
      | some g => simp [trimRightBy_getLast _ _ _ hg]
  have hj := joinSep_nl_clean _ hpieces
  have hNW : NormalizeWhitespace text
      = trimRightBy isWS (trimLeftBy isWS
          (joinSep ['\n'] ((splitCh '\n' (collapseNL text)).map (trimRightBy isSpTab)))) :=
    rfl
  set j := joinSep ['\n'] ((splitCh '\n' (collapseNL text)).map (trimRightBy isSpTab))
    with hjdef
  have hu1 : pairFree (trimLeftBy isWS j) = true := pairFree_trimLeft _ _ hj.1
  have hu2 : lastOk (trimLeftBy isWS j) = true := lastOk_trimLeft _ _ hj.2
  have hpre : trimRightBy isWS (trimLeftBy isWS j) <+: trimLeftBy isWS j :=
    trimRightBy_isPrefix _ _
  have hfpf : pairFree (trimRightBy isWS (trimLeftBy isWS j)) = true :=
    pairFree_prefix _ _ hpre hu1
  have hflo : lastOk (trimRightBy isWS (trimLeftBy isWS j)) = true := by
    simp only [lastOk]
    cases hg : (trimRightBy isWS (trimLeftBy isWS j)).getLast? with
    | none => rfl
    | some g =>
      have hw := trimRightBy_getLast _ _ _ hg
      cases hsp : isSpTab g with
      | false => simp [hsp]
      | true => exact absurd (isSpTab_isWS g hsp) (by simp [hw])
  refine ⟨?_, ?_⟩
  · rw [hNW, noTrailWS_eq, hfpf, hflo]
    rfl
  · rw [hNW]
    simp only [noEdgeWS, Bool.and_eq_true]
    constructor
    · cases hh : (trimRightBy isWS (trimLeftBy isWS j)).head? with
      | none => rfl
      | some ch =>
        have hh2 := head?_prefix _ _ hpre ch hh
        simp [trimLeftBy_head isWS j ch hh2]
    · cases hg : (trimRightBy isWS (trimLeftBy isWS j)).getLast? with
      | none => rfl
      | some g => simp [trimRightBy_getLast _ _ _ hg]

/-- The document exhibiting the C8 counterexample: one paragraph whose text
holds blank-looking lines made of a single space. -/
def p8node : AVal :=
  .obj [("type".data, .s "paragraph".data),
    ("content".data, .arr [textNodeOf "a\n \n \nb".data])]

def d8node : AVal :=
  .obj [("type".data, .s "doc".data), ("version".data, .i 1),
    ("content".data, .arr [p8node])]

/-- Evaluation of `ToMarkdown` on the C8 document: the space-only blank
lines defeat the newline collapse, which runs before per-line trimming. -/
theorem ToMarkdown_d8 : ToMarkdown d8node = "a\n\n\nb".data := by
  have hrender : renderADFNode p8node 0 = "a\n \n \nb".data := by
    rw [renderADFNode_paragraph p8node 0 rfl]
    have hc : renderContent p8node = "a\n \n \nb".data := by
      rw [renderContent_arr p8node [textNodeOf "a\n \n \nb".data] rfl]
      exact renderContentChildren_single_text _ (by decide)
    have ha : asObj (getKey p8node "attrs".data) = none := rfl
    simp only [renderParagraph, ha, hc]
  have hobj : p8node.isObj = true := rfl
  have hb : renderBlockChildren [p8node] = ["a\n \n \nb".data] := by
    simp only [renderBlockChildren, hobj, if_true, hrender]
    decide
  have hT : ToMarkdown d8node
      = NormalizeWhitespace (joinSep "\n\n".data (renderBlockChildren [p8node])) := rfl
  have hcol : collapseNL "a\n \n \nb".data = "a\n \n \nb".data := by
    simp [collapseNL, repeatS]
  have hNW8 : NormalizeWhitespace "a\n \n \nb".data = "a\n\n\nb".data := by
    simp only [NormalizeWhitespace, hcol]
    decide
  rw [hT, hb]
  show NormalizeWhitespace "a\n \n \nb".data = "a\n\n\nb".data
  rw [hNW8]

/-- C8: whitespace normalization of rendered output. The no-trailing-space
and no-edge-whitespace parts hold for every document, but the no-triple-
newline part is false: blank lines containing a space survive the newline
collapse (which runs before per-line trimming), so `d8node` renders with
`\n\n\n` inside. -/
theorem C8_whitespace_normalized :
    (containsSub "\n\n\n".data (ToMarkdown d8node) = true)
    ∧ (∀ text : Str, noTrailWS (NormalizeWhitespace text) = true
        ∧ noEdgeWS (NormalizeWhitespace text) = true)
    ∧ (∀ d : AVal, noTrailWS (ToMarkdown d) = true
        ∧ noEdgeWS (ToMarkdown d) = true) := by
  refine ⟨?_, NormalizeWhitespace_clean, ?_⟩
  · rw [ToMarkdown_d8]
    decide
  · intro d
    match hD : asArr (getKey d "content".data) with
    | none =>
      have hT : ToMarkdown d = [] := by
        simp only [ToMarkdown, renderADFDocument, hD]
      rw [hT]
      exact ⟨rfl, rfl⟩
    | some content =>
      have hT : ToMarkdown d
          = NormalizeWhitespace (joinSep "\n\n".data (renderBlockChildren content)) := by
        simp only [ToMarkdown, renderADFDocument, hD]
      rw [hT]
      exact NormalizeWhitespace_clean _

theorem earliestLoop_go (remaining : Str) (pats : List Pat) :
    ∀ (pi : Nat) (best : Option (Nat × Nat × Nat × List Str)),
      (∀ qi qs qe qc, best = some (qi, qs, qe, qc) → qi < pi) →
      ∀ j st en caps,
        earliestLoop pats remaining pi best = some (j, st, en, caps) →
        ((best = some (j, st, en, caps)
            ∨ ∃ i p, pats[i]? = some p ∧ j = pi + i
                ∧ findFirst p remaining = some (st, en, caps))
          ∧ (∀ i p, pats[i]? = some p → ∀ st' en' caps',
              findFirst p remaining = some (st', en', caps') →
                st ≤ st' ∧ (st' ≤ st → j ≤ pi + i))
          ∧ (∀ qi qs qe qc, best = some (qi, qs, qe, qc) →
              st ≤ qs ∧ (qs ≤ st → j ≤ qi))) := by
  induction pats with
  | nil =>
    intro pi best hinv j st en caps h
    simp only [earliestLoop] at h
    refine ⟨Or.inl h, ?_, ?_⟩
    · intro i p hp
      simp at hp
    · intro qi qs qe qc hq
      rw [hq] at h
      simp only [Option.some.injEq, Prod.mk.injEq] at h
      obtain ⟨rfl, rfl, rfl, rfl⟩ := h
      exact ⟨le_rfl, fun _ => le_rfl⟩
  | cons p rest ih =>
    intro pi best hinv j st en caps h
    simp only [earliestLoop] at h
    cases hF : findFirst p remaining with
    | none =>
      rw [hF] at h
      simp only at h
      have hinv1 : ∀ qi qs qe qc, best = some (qi, qs, qe, qc) → qi < pi + 1 :=
        fun qi qs qe qc hq => Nat.lt_succ_of_lt (hinv qi qs qe qc hq)
      obtain ⟨hA, hB, hC⟩ := ih (pi + 1) best hinv1 j st en caps h
      refine ⟨?_, ?_, hC⟩
      · rcases hA with hA | ⟨i, p', hp', hj, hFp⟩
        · exact Or.inl hA
        · exact Or.inr ⟨i + 1, p', by simpa using hp', by omega, hFp⟩
      · intro i p0 hp0 st' en' caps' hFp
        cases i with
        | zero =>
          simp only [List.getElem?_cons_zero, Option.some.injEq] at hp0
          rw [← hp0] at hFp
          rw [hFp] at hF
          cases hF
        | succ i' =>
          simp only [List.getElem?_cons_succ] at hp0
          have hb := hB i' p0 hp0 st' en' caps' hFp
          exact ⟨hb.1, fun hle => by have := hb.2 hle; omega⟩
    | some y =>
      obtain ⟨st0, en0, caps0⟩ := y
      rw [hF] at h
      simp only at h
      cases best with
      | none =>
        simp only at h
        have hinv1 : ∀ qi qs qe qc,
            (some (pi, st0, en0, caps0) : Option (Nat × Nat × Nat × List Str))
              = some (qi, qs, qe, qc) → qi < pi + 1 := by
          intro qi qs qe qc hq
          simp only [Option.some.injEq, Prod.mk.injEq] at hq
          omega
        obtain ⟨hA, hB, hC⟩ := ih (pi + 1) (some (pi, st0, en0, caps0)) hinv1 j st en caps h
        have hCme := hC pi st0 en0 caps0 rfl
        refine ⟨?_, ?_, ?_⟩
        · rcases hA with hA | ⟨i, p', hp', hj, hFp⟩
          · simp only [Option.some.injEq, Prod.mk.injEq] at hA
            obtain ⟨rfl, rfl, rfl, rfl⟩ := hA
            exact Or.inr ⟨0, p, by simp, by omega, hF⟩
          · exact Or.inr ⟨i + 1, p', by simpa using hp', by omega, hFp⟩
        · intro i p0 hp0 st' en' caps' hFp
          cases i with
          | zero =>
            simp only [List.getElem?_cons_zero, Option.some.injEq] at hp0
            rw [← hp0] at hFp
            rw [hFp] at hF
            simp only [Option.some.injEq, Prod.mk.injEq] at hF
            obtain ⟨rfl, rfl, rfl⟩ := hF
            exact ⟨hCme.1, fun hle => by have := hCme.2 hle; omega⟩
          | succ i' =>
            simp only [List.getElem?_cons_succ] at hp0
            have hb := hB i' p0 hp0 st' en' caps' hFp
            exact ⟨hb.1, fun hle => by have := hb.2 hle; omega⟩
        · intro qi qs qe qc hq
          exact Option.noConfusion hq
      | some q =>
        obtain ⟨qi, qs, qe, qc⟩ := q
        simp only at h
        by_cases hlt : st0 < qs
        · rw [if_pos hlt] at h
          have hinv1 : ∀ qi2 qs2 qe2 qc2,
              (some (pi, st0, en0, caps0) : Option (Nat × Nat × Nat × List Str))
                = some (qi2, qs2, qe2, qc2) → qi2 < pi + 1 := by
            intro qi2 qs2 qe2 qc2 hq
            simp only [Option.some.injEq, Prod.mk.injEq] at hq
            omega
          obtain ⟨hA, hB, hC⟩ := ih (pi + 1) (some (pi, st0, en0, caps0)) hinv1 j st en caps h
          have hCme := hC pi st0 en0 caps0 rfl
          refine ⟨?_, ?_, ?_⟩
          · rcases hA with hA | ⟨i, p', hp', hj, hFp⟩
            · simp only [Option.some.injEq, Prod.mk.injEq] at hA
              obtain ⟨rfl, rfl, rfl, rfl⟩ := hA
              exact Or.inr ⟨0, p, by simp, by omega, hF⟩
            · exact Or.inr ⟨i + 1, p', by simpa using hp', by omega, hFp⟩
          · intro i p0 hp0 st' en' caps' hFp
            cases i with
            | zero =>
              simp only [List.getElem?_cons_zero, Option.some.injEq] at hp0
              rw [← hp0] at hFp
              rw [hFp] at hF
              simp only [Option.some.injEq, Prod.mk.injEq] at hF
              obtain ⟨rfl, rfl, rfl⟩ := hF
              exact ⟨hCme.1, fun hle => by have := hCme.2 hle; omega⟩
            | succ i' =>
              simp only [List.getElem?_cons_succ] at hp0
              have hb := hB i' p0 hp0 st' en' caps' hFp
              exact ⟨hb.1, fun hle => by have := hb.2 hle; omega⟩
          · intro qi2 qs2 qe2 qc2 hq
            simp only [Option.some.injEq, Prod.mk.injEq] at hq
            obtain ⟨rfl, rfl, rfl, rfl⟩ := hq
            have h1 := hCme.1
            exact ⟨by omega, fun h2 => by omega⟩
        · rw [if_neg hlt] at h
          have hqpi : qi < pi := hinv qi qs qe qc rfl
          have hinv1 : ∀ qi2 qs2 qe2 qc2,
              (some (qi, qs, qe, qc) : Option (Nat × Nat × Nat × List Str))
                = some (qi2, qs2, qe2, qc2) → qi2 < pi + 1 := by
            intro qi2 qs2 qe2 qc2 hq
            simp only [Option.some.injEq, Prod.mk.injEq] at hq
            omega
          obtain ⟨hA, hB, hC⟩ := ih (pi + 1) (some (qi, qs, qe, qc)) hinv1 j st en caps h
          have hCq := hC qi qs qe qc rfl
          refine ⟨?_, ?_, ?_⟩
          · rcases hA with hA | ⟨i, p', hp', hj, hFp⟩
            · exact Or.inl hA
            · exact Or.inr ⟨i + 1, p', by simpa using hp', by omega, hFp⟩
          · intro i p0 hp0 st' en' caps' hFp
            cases i with
            | zero =>
              simp only [List.getElem?_cons_zero, Option.some.injEq] at hp0
              rw [← hp0] at hFp
              rw [hFp] at hF
              simp only [Option.some.injEq, Prod.mk.injEq] at hF
              obtain ⟨rfl, rfl, rfl⟩ := hF
              have h1 := hCq.1
              refine ⟨by omega, fun hle => ?_⟩
              have h2 := hCq.2 (by omega)
              omega
            | succ i' =>
              simp only [List.getElem?_cons_succ] at hp0
              have hb := hB i' p0 hp0 st' en' caps' hFp
              exact ⟨hb.1, fun hle => by have := hb.2 hle; omega⟩
          · intro qi2 qs2 qe2 qc2 hq
            simp only [Option.some.injEq, Prod.mk.injEq] at hq
            obtain ⟨rfl, rfl, rfl, rfl⟩ := hq
            exact hCq

/-- The mention node produced for `{user:42}`. -/
def mention42Node : AVal :=
  .obj [("type".data, .s "mention".data),
    ("attrs".data, .obj [("id".data, .s "42".data), ("text".data, .s "@42".data)])]

/-- The strong-marked text node produced for `**bold**`. -/
def boldTextNode : AVal :=
  .obj [("type".data, .s "text".data), ("text".data, .s "bold".data),
    ("marks".data, .arr [.obj [("type".data, .s "strong".data)]])]

/-- C4: earliest-match-wins disambiguation of the inline parser: the winner
of the matcher loop matches at the smallest start position among all
patterns, ties going to the earlier list entry; the loop emits the literal
text before the match as a plain text node and resumes after the match; and
on `{user:42} **bold**` this yields mention, single-space text, and
strong-marked text, in that order. -/
theorem C4_earliest_match :
    (parseInlineContent idStream "{user:42} **bold**".data 0
        = ([mention42Node, textAV " ".data, boldTextNode], 0))
    ∧ (∀ (remaining : Str) (pj st en : Nat) (caps : List Str),
        earliestLoop inlinePats remaining 0 none = some (pj, st, en, caps) →
          (∃ p, inlinePats[pj]? = some p ∧ findFirst p remaining = some (st, en, caps))
          ∧ (∀ (k : Nat) (p : Pat) (st' en' : Nat) (caps' : List Str),
              inlinePats[k]? = some p →
              findFirst p remaining = some (st', en', caps') →
                st ≤ st' ∧ (st' = st → pj ≤ k)))
    ∧ (∀ (gen : Nat → Str) (fuel : Nat) (remaining : Str) (ctr : Nat)
        (acc : List AVal) (pj st en : Nat) (caps : List Str),
        remaining.isEmpty = false →
        earliestLoop inlinePats remaining 0 none = some (pj, st, en, caps) →
        parseInlineLoopF gen (fuel + 1) remaining ctr acc
          = parseInlineLoopF gen fuel (remaining.drop en)
              (inlineHandler gen pj caps ctr).2
              ((if 0 < st then acc ++ [textAV (remaining.take st)] else acc)
                ++ [(inlineHandler gen pj caps ctr).1])) := by
  refine ⟨rfl, ?_, ?_⟩
  · intro remaining pj st en caps h
    obtain ⟨hA, hB, _⟩ := earliestLoop_go remaining inlinePats 0 none
      (by intro qi qs qe qc hq; cases hq) pj st en caps h
    constructor
    · rcases hA with hA | ⟨i, p, hp, hj, hFp⟩
      · cases hA
      · exact ⟨p, by rw [hj]; simpa using hp, hFp⟩
    · intro k p st' en' caps' hk hFp
      have hb := hB k p hk st' en' caps' hFp
      exact ⟨hb.1, fun he => by have := hb.2 (Nat.le_of_eq he); omega⟩
  · intro gen fuel remaining ctr acc pj st en caps hemp hE
    simp only [parseInlineLoopF, hemp, Bool.false_eq_true, if_false, hE]

theorem C4_earliest_match_witness :
    parseInlineLoopF idStream 19 "{user:42} **bold**".data 0 []
      = parseInlineLoopF idStream 18 ("{user:42} **bold**".data.drop 9)
          (inlineHandler idStream 0 ["42".data] 0).2
          ((if 0 < 0 then [] ++ [textAV ("{user:42} **bold**".data.take 0)] else [])
            ++ [(inlineHandler idStream 0 ["42".data] 0).1]) :=
  C4_earliest_match.2.2 idStream 18 "{user:42} **bold**".data 0 [] 0 0 9
    ["42".data] (by decide) rfl

/-- Basic consequences of being an ASCII letter. -/
theorem letter_not_isWS (c : Char) (hc : isAsciiLetter c = true) : isWS c = false := by
  cases hw : isWS c
  · rfl
  · exfalso
    simp only [isWS, Bool.or_eq_true, decide_eq_true_eq] at hw
    rcases hw with ((((h | h) | h) | h) | h) | h
    · subst h; exact absurd hc (by decide)
    · subst h; exact absurd hc (by decide)
    · subst h; exact absurd hc (by decide)
    · rw [← h] at hc; exact absurd hc (by decide)
    · rw [← h] at hc; exact absurd hc (by decide)
    · subst h; exact absurd hc (by decide)

theorem letter_not_isSpTab (c : Char) (hc : isAsciiLetter c = true) :
    isSpTab c = false := by
  cases hw : isSpTab c
  · rfl
  · exfalso
    simp only [isSpTab, Bool.or_eq_true, decide_eq_true_eq] at hw
    rcases hw with h | h
    · subst h; exact absurd hc (by decide)
    · subst h; exact absurd hc (by decide)

theorem letter_not_isDigitC (c : Char) (hc : isAsciiLetter c = true) :
    isDigitC c = false := by
  cases hw : isDigitC c
  · rfl
  · exfalso
    simp only [isAsciiLetter, isDigitC, Bool.or_eq_true, Bool.and_eq_true,
      decide_eq_true_eq] at hc hw
    have h1 := hw.1
    have h2 := hw.2
    rcases hc with ⟨h3, h4⟩ | ⟨h3, h4⟩
    · exact absurd (le_trans h3 h2) (by decide)
    · exact absurd (le_trans h3 h2) (by decide)

theorem nonletter_ne (c d : Char) (hc : isAsciiLetter c = true)
    (hd : isAsciiLetter d = false) : d ≠ c := by
  intro he
  subst he
  rw [hc] at hd
  cases hd

/-- A pattern that fails on every all-letters string. -/
def LetterFail (p : Pat) : Prop :=
  ∀ s : Str, (∀ c ∈ s, isAsciiLetter c = true) → p s = none

theorem lf_pch (c : Char) (hc : isAsciiLetter c = false) : LetterFail (pch c) := by
  intro s hs
  cases s with
  | nil => rfl
  | cons c' cs =>
    simp only [pch]
    rw [if_neg]
    intro he
    subst he
    rw [hs c' (by simp)] at hc
    cases hc

theorem lf_pstr_head (c0 : Char) (rest : Str) (hc : isAsciiLetter c0 = false) :
    LetterFail (pstr (c0 :: rest)) := by
  intro s hs
  cases s with
  | nil => rfl
  | cons c' cs =>
    simp only [pstr, startsWith]
    rw [if_neg]
    simp only [Bool.and_eq_true, decide_eq_true_eq]
    intro hand
    exact nonletter_ne c' c0 (hs c' (by simp)) hc hand.1

theorem lf_pseq (a b : Pat) (ha : LetterFail a) : LetterFail (pseq a b) := by
  intro s hs
  simp only [pseq, ha s hs]

theorem lf_palt2 (a b : Pat) (ga gb : Nat) (ha : LetterFail a) (hb : LetterFail b) :
    LetterFail (palt2 a ga b gb) := by
  intro s hs
  simp only [palt2, ha s hs, hb s hs]

theorem letters_takeWhile_isWS (s : Str) (hs : ∀ c ∈ s, isAsciiLetter c = true) :
    s.takeWhile isWS = [] := by
  cases s with
  | nil => rfl
  | cons c cs => simp [List.takeWhile, letter_not_isWS c (hs c (by simp))]

theorem lf_taskItem : LetterFail TaskItemRe := by
  intro s hs
  simp only [TaskItemRe, pseq, pcap, pcls0, letters_takeWhile_isWS s hs]
  simp only [Option.map_some, List.length_nil, List.drop_zero]
  have h2 : pstr "- [".data s = none := lf_pstr_head '-' " [".data (by decide) s hs
  simp [h2]

theorem letters_takeWhile_isDigitC (s : Str) (hs : ∀ c ∈ s, isAsciiLetter c = true) :
    s.takeWhile isDigitC = [] := by
  cases s with
  | nil => rfl
  | cons c cs => simp [List.takeWhile, letter_not_isDigitC c (hs c (by simp))]

theorem lf_orderedGuard : LetterFail OrderedGuardRe := by
  intro s hs
  simp only [OrderedGuardRe, pseq, pcls1, letters_takeWhile_isDigitC s hs]
  simp

theorem lf_metadata : LetterFail MetadataCommentRe :=
  lf_pseq _ _ (lf_pstr_head '<' "!--".data (by decide))

theorem lf_fenceBlock : LetterFail FenceBlockRe :=
  lf_pseq _ _ (lf_pstr_head '~' "~~".data (by decide))

theorem lf_imageLine : LetterFail ImageLineRe :=
  lf_pseq _ _ (lf_pstr_head '!' "[".data (by decide))

theorem lf_inlinePats : ∀ p ∈ inlinePats, LetterFail p := by
  intro p hp
  simp only [inlinePats, List.mem_cons, List.not_mem_nil, or_false] at hp
  rcases hp with rfl | rfl | rfl | rfl | rfl | rfl | rfl | rfl | rfl | rfl | rfl
    | rfl | rfl | rfl | rfl
  · exact lf_pseq _ _ (lf_pstr_head '{' "user:".data (by decide))
  · exact lf_pseq _ _ (lf_pstr_head '{' "date:".data (by decide))
  · exact lf_pseq _ _ (lf_pstr_head '{' "status:".data (by decide))
  · exact lf_pseq _ _ (lf_pstr_head '{' "card:".data (by decide))
  · exact lf_pseq _ _ (lf_pch ':' (by decide))
  · exact lf_pseq _ _ (lf_pstr_head '@' "[".data (by decide))
  · exact lf_pseq _ _ (lf_pch '[' (by decide))
  · exact lf_palt2 _ _ _ _ (lf_pseq _ _ (lf_pstr_head '*' "*".data (by decide)))
      (lf_pseq _ _ (lf_pstr_head '_' "_".data (by decide)))
  · exact lf_palt2 _ _ _ _ (lf_pseq _ _ (lf_pch '*' (by decide)))
      (lf_pseq _ _ (lf_pch '_' (by decide)))
  · exact lf_pseq _ _ (lf_pstr_head '~' "~".data (by decide))
  · exact lf_pseq _ _ (lf_pch bqChar (by decide))
  · exact lf_pseq _ _ (lf_pstr_head '{' "color:".data (by decide))
  · exact lf_pseq _ _ (lf_pstr_head '<' "u>".data (by decide))
  · exact lf_pseq _ _ (lf_pstr_head '<' "sub>".data (by decide))
  · exact lf_pseq _ _ (lf_pstr_head '<' "sup>".data (by decide))

theorem findFirstGo_letters_none (p : Pat) (hp : LetterFail p) :
    ∀ (s : Str) (pos : Nat), (∀ c ∈ s, isAsciiLetter c = true) →
      findFirstGo p s pos = none := by
  intro s
  induction s with
  | nil =>
    intro pos hs
    simp only [findFirstGo, hp [] hs]
  | cons c cs ih =>
    intro pos hs
    simp only [findFirstGo, hp (c :: cs) hs]
    exact ih (pos + 1) (fun d hd => hs d (by simp [hd]))

theorem findFirst_letters_none (p : Pat) (hp : LetterFail p) (s : Str)
    (hs : ∀ c ∈ s, isAsciiLetter c = true) : findFirst p s = none :=
  findFirstGo_letters_none p hp s 0 hs

theorem earliestLoop_all_none (remaining : Str) :
    ∀ (pats : List Pat) (pi : Nat),
      (∀ p ∈ pats, findFirst p remaining = none) →
      earliestLoop pats remaining pi none = none := by
  intro pats
  induction pats with
  | nil => intro pi h; rfl
  | cons p rest ih =>
    intro pi h
    simp only [earliestLoop, h p (by simp)]
    exact ih (pi + 1) (fun q hq => h q (by simp [hq]))

theorem parseInlineContent_letters (gen : Nat → Str) (t : Str) (ctr : Nat)
    (hne : t ≠ []) (hl : ∀ c ∈ t, isAsciiLetter c = true) :
    parseInlineContent gen t ctr = ([textAV t], ctr) := by
  have hemp : t.isEmpty = false := by
    cases t with
    | nil => exact absurd rfl hne
    | cons c cs => rfl
  have hE : earliestLoop inlinePats t 0 none = none :=
    earliestLoop_all_none t inlinePats 0
      (fun p hp => findFirst_letters_none p (lf_inlinePats p hp) t hl)
  have hloop : parseInlineLoopF gen (t.length + 1) t ctr [] = some ([textAV t], ctr) := by
    simp only [parseInlineLoopF, hemp, Bool.false_eq_true, if_false, hE]
    simp
  simp only [parseInlineContent, hemp, Bool.false_eq_true, if_false, hloop]
  simp



theorem letters_not_mem_nl (t : Str) (hl : ∀ c ∈ t, isAsciiLetter c = true) :
    '\n' ∉ t :=
  fun hmem => absurd (hl '\n' hmem) (by decide)

theorem collapseNL_letters (t : Str) (hl : ∀ c ∈ t, isAsciiLetter c = true) :
    collapseNL t = t := by
  induction t with
  | nil => simp [collapseNL]
  | cons c cs ih =>
    have hc : ¬(c = '\n') := by
      intro he
      subst he
      exact absurd (hl '\n' (by simp)) (by decide)
    rw [show collapseNL (c :: cs)
        = (if c = '\n' then
            (if 1 + (cs.takeWhile (· = '\n')).length ≥ 3 then '\n' :: '\n' :: []
             else repeatS ['\n'] (1 + (cs.takeWhile (· = '\n')).length))
              ++ collapseNL (cs.dropWhile (· = '\n'))
          else c :: collapseNL cs) from by simp [collapseNL]]
    rw [if_neg hc, ih (fun d hd => hl d (by simp [hd]))]

theorem splitCh_no_sep (sep : Char) (t : Str) (h : sep ∉ t) : splitCh sep t = [t] := by
  induction t with
  | nil => rfl
  | cons c cs ih =>
    have hc : ¬(c = sep) := fun he => h (by simp [he])
    rw [splitCh_cons_ne sep c cs hc cs [] (ih (fun hm => h (by simp [hm])))]

theorem trimLeftBy_all_false (f : Char → Bool) (t : Str)
    (h : ∀ c ∈ t, f c = false) : trimLeftBy f t = t := by
  cases t with
  | nil => rfl
  | cons c cs => simp [trimLeftBy, h c (by simp)]

theorem trimRightBy_all_false (f : Char → Bool) (t : Str)
    (h : ∀ c ∈ t, f c = false) : trimRightBy f t = t := by
  simp only [trimRightBy]
  rw [trimLeftBy_all_false f t.reverse (fun c hc => h c (List.mem_reverse.mp hc)),
    List.reverse_reverse]

theorem trimSpace_letters (t : Str) (hl : ∀ c ∈ t, isAsciiLetter c = true) :
    trimSpace t = t := by
  simp only [trimSpace]
  rw [trimLeftBy_all_false isWS t (fun c hc => letter_not_isWS c (hl c hc)),
    trimRightBy_all_false isWS t (fun c hc => letter_not_isWS c (hl c hc))]

theorem NormalizeWhitespace_letters (t : Str) (hl : ∀ c ∈ t, isAsciiLetter c = true) :
    NormalizeWhitespace t = t := by
  simp only [NormalizeWhitespace]
  rw [collapseNL_letters t hl, splitCh_no_sep '\n' t (letters_not_mem_nl t hl),
    List.map_singleton,
    trimRightBy_all_false isSpTab t (fun c hc => letter_not_isSpTab c (hl c hc))]
  exact trimSpace_letters t hl

theorem letters_startsWith_false (d : Char) (rest : Str) (hd : isAsciiLetter d = false)
    (t : Str) (hne : t ≠ []) (hl : ∀ c ∈ t, isAsciiLetter c = true) :
    startsWith (d :: rest) t = false := by
  cases t with
  | nil => exact absurd rfl hne
  | cons c cs =>
    simp only [startsWith, Bool.and_eq_false_iff]
    left
    simp only [decide_eq_false_iff_not]
    exact nonletter_ne c d (hl c (by simp)) hd

theorem letters_ne_lit (t : Str) (hl : ∀ c ∈ t, isAsciiLetter c = true)
    (d : Char) (rest : Str) (hd : isAsciiLetter d = false) : ¬(t = d :: rest) := by
  intro he
  subst he
  exact absurd (hl d (by simp)) (by simp [hd])



/-- The paragraph node the parser produces for a single all-letters line. -/
def paraNodeOf (t : Str) : AVal :=
  .obj [("type".data, .s "paragraph".data), ("content".data, .arr [textAV t])]

/-- A parsed document node with the given block list. -/
def docNodeOf (content : List AVal) : AVal :=
  .obj [("type".data, .s "doc".data), ("version".data, .i 1),
    ("content".data, .arr content)]

theorem paraScanF_letters (f : Nat) (t : Str) (hne : t ≠ [])
    (hl : ∀ c ∈ t, isAsciiLetter c = true) :
    paraScanF (f + 2) [t] 0 [] = some ([t], 1) := by
  have hts := trimSpace_letters t hl
  have htse : (trimSpace t).isEmpty = false := by
    rw [hts]
    cases t with
    | nil => exact absurd rfl hne
    | cons c cs => rfl
  have h1 : startsWith "#".data t = false :=
    letters_startsWith_false '#' [] (by decide) t hne hl
  have h2 : startsWith "```".data t = false :=
    letters_startsWith_false (Char.ofNat 96) "``".data (by decide) t hne hl
  have h3 : startsWith "~~~".data t = false :=
    letters_startsWith_false '~' "~~".data (by decide) t hne hl
  have h4 : startsWith "> ".data t = false :=
    letters_startsWith_false '>' " ".data (by decide) t hne hl
  have h5 : startsWith "- ".data t = false :=
    letters_startsWith_false '-' " ".data (by decide) t hne hl
  have h6 : startsWith "* ".data t = false :=
    letters_startsWith_false '*' " ".data (by decide) t hne hl
  have h7 : startsWith "+ ".data t = false :=
    letters_startsWith_false '+' " ".data (by decide) t hne hl
  have h8 : startsWith "|".data t = false :=
    letters_startsWith_false '|' [] (by decide) t hne hl
  have h9 : ¬(t = "---".data) := letters_ne_lit t hl '-' "--".data (by decide)
  have h10 : ¬(t = "***".data) := letters_ne_lit t hl '*' "**".data (by decide)
  have h11 : ¬(t = "___".data) := letters_ne_lit t hl '_' "__".data (by decide)
  have hord : OrderedGuardRe t = none := lf_orderedGuard t hl
  have hti : TaskItemRe t = none := lf_taskItem t hl
  rw [show f + 2 = f + 1 + 1 from rfl]
  simp only [paraScanF, List.getElem?_cons_zero, List.getElem?_cons_succ,
    List.getElem?_nil, htse, h1, h2, h3, h4, h5, h6, h7, h8, h9, h10, h11,
    hord, hti, Option.isSome_none, Bool.false_and, Bool.or_self, Bool.or_false,
    Bool.false_or, Bool.false_eq_true, if_false, decide_False, List.isEmpty_nil,
    Bool.not_true, Bool.and_false, Bool.and_self, List.nil_append, Nat.zero_add]

theorem parseParagraphF_letters (gen : Nat → Str) (f : Nat) (t : Str) (ctr : Nat)
    (hne : t ≠ []) (hl : ∀ c ∈ t, isAsciiLetter c = true) :
    parseParagraphF gen (f + 2) [t] 0 none ctr
      = some (some (paraNodeOf t), 1, ctr) := by
  have hscan := paraScanF_letters f t hne hl
  have hic : parseInlineContent gen (joinSep ['\n'] [t]) ctr = ([textAV t], ctr) := by
    rw [show joinSep ['\n'] [t] = t from rfl]
    exact parseInlineContent_letters gen t ctr hne hl
  simp only [parseParagraphF, hscan, hic]
  simp [paraNodeOf]

theorem parseBlocksF_letters (gen : Nat → Str) (f : Nat) (t : Str) (ctr : Nat)
    (hne : t ≠ []) (hl : ∀ c ∈ t, isAsciiLetter c = true) :
    parseBlocksF gen (f + 3) [t] 0 none [] ctr = some ([paraNodeOf t], ctr) := by
  have hts := trimSpace_letters t hl
  have htse : (trimSpace t).isEmpty = false := by
    rw [hts]
    cases t with
    | nil => exact absurd rfl hne
    | cons c cs => rfl
  have hmeta : findFirst MetadataCommentRe t = none :=
    findFirst_letters_none _ lf_metadata t hl
  have hfence : reMatch FenceBlockRe t = none := by
    simp [reMatch, lf_fenceBlock t hl]
  have h1 : startsWith "#".data t = false :=
    letters_startsWith_false '#' [] (by decide) t hne hl
  have h2 : startsWith "```".data t = false :=
    letters_startsWith_false (Char.ofNat 96) "``".data (by decide) t hne hl
  have h4 : startsWith "> ".data t = false :=
    letters_startsWith_false '>' " ".data (by decide) t hne hl
  have h5 : startsWith "- ".data t = false :=
    letters_startsWith_false '-' " ".data (by decide) t hne hl
  have h6 : startsWith "* ".data t = false :=
    letters_startsWith_false '*' " ".data (by decide) t hne hl
  have h7 : startsWith "+ ".data t = false :=
    letters_startsWith_false '+' " ".data (by decide) t hne hl
  have h8 : startsWith "|".data t = false :=
    letters_startsWith_false '|' [] (by decide) t hne hl
  have h9 : ¬(t = "---".data) := letters_ne_lit t hl '-' "--".data (by decide)
  have h10 : ¬(t = "***".data) := letters_ne_lit t hl '*' "**".data (by decide)
  have h11 : ¬(t = "___".data) := letters_ne_lit t hl '_' "__".data (by decide)
  have h12 : ¬(t = ">".data) := letters_ne_lit t hl '>' [] (by decide)
  have hord : OrderedGuardRe t = none := lf_orderedGuard t hl
  have hti : TaskItemRe t = none := lf_taskItem t hl
  have himg : reMatch ImageLineRe (trimSpace t) = none := by
    rw [hts]
    simp [reMatch, lf_imageLine t hl]
  have hpara := parseParagraphF_letters gen f t ctr hne hl
  rw [show f + 3 = f + 2 + 1 from rfl]
  simp only [parseBlocksF, List.getElem?_cons_zero, List.getElem?_cons_succ,
    List.getElem?_nil, htse, Bool.false_eq_true, if_false,
    hmeta, hfence, h1, h2, h4, h5, h6, h7, h8, h9, h10, h11, h12, hord, hti, himg,
    Option.isSome_none, Bool.false_and, Bool.or_self, Bool.or_false, Bool.false_or,
    decide_False, List.isEmpty_nil, Bool.not_true, Bool.and_false, Bool.and_self,
    List.nil_append, Nat.zero_add, hpara]

theorem FromMarkdownF_letters (gen : Nat → Str) (f : Nat) (t : Str)
    (hne : t ≠ []) (hl : ∀ c ∈ t, isAsciiLetter c = true) :
    FromMarkdownF gen (f + 3) t = some (docNodeOf [paraNodeOf t]) := by
  simp only [FromMarkdownF, parseMarkdownDocumentF,
    splitCh_no_sep '\n' t (letters_not_mem_nl t hl),
    parseBlocksF_letters gen f t 0 hne hl]
  rfl



/-- Rendering a plain paragraph of a single text node. -/
theorem renderParagraph_plain (t : Str) (h : t.isEmpty = false) :
    renderADFNode (paraNodeOf t) 0 = t := by
  rw [renderADFNode_paragraph (paraNodeOf t) 0 rfl]
  have hc : renderContent (paraNodeOf t) = t := by
    rw [renderContent_arr (paraNodeOf t) [textAV t] rfl]
    exact renderContentChildren_single_text t h
  have ha : asObj (getKey (paraNodeOf t) "attrs".data) = none := rfl
  simp only [renderParagraph, ha, hc]

/-- Model of `ToMarkdown` of a one-block document whose block renders non-empty. -/
theorem ToMarkdown_single (n : AVal) (hobj : n.isObj = true)
    (hre : (renderADFNode n 0).isEmpty = false) :
    ToMarkdown (docNodeOf [n]) = NormalizeWhitespace (renderADFNode n 0) := by
  have hb : renderBlockChildren [n] = [renderADFNode n 0] := by
    simp [renderBlockChildren, hobj, hre]
  have hT : ToMarkdown (docNodeOf [n])
      = NormalizeWhitespace (joinSep "\n\n".data (renderBlockChildren [n])) := rfl
  rw [hT, hb]
  rfl

/-- A heading node whose `level` attribute is a Go `int` (what the parser
produces), over a single text node. -/
def hNodeOfI (lvl : Int) (t : Str) : AVal :=
  .obj [("type".data, .s "heading".data),
    ("attrs".data, .obj [("level".data, .i lvl)]),
    ("content".data, .arr [textAV t])]

/-- Rendering a heading whose `level` is an `int`: the `float64` assertion
fails, so the level falls back to 1. -/
theorem renderHeading_iLvl (lvl : Int) (t : Str) (h : t.isEmpty = false) :
    renderHeading (hNodeOfI lvl t) = '#' :: ' ' :: t := by
  have hc : renderContent (hNodeOfI lvl t) = t := by
    rw [renderContent_arr (hNodeOfI lvl t) [textAV t] rfl]
    exact renderContentChildren_single_text t h
  have h1 : asObj (getKey (hNodeOfI lvl t) "attrs".data)
      = some [("level".data, AVal.i lvl)] := rfl
  have h2 : asFloat (lookup "level".data [("level".data, AVal.i lvl)]) = none := rfl
  simp only [renderHeading, h1, h2, hc]
  simp [repeatS]

/-- Rendering a heading whose `level` is a float: clamped into [1,6]. -/
theorem renderHeading_fLvl2 (t : Str) (h : t.isEmpty = false) :
    renderHeading (hNodeOf 2 t) = '#' :: '#' :: ' ' :: t := by
  have hc : renderContent (hNodeOf 2 t) = t := by
    rw [renderContent_arr (hNodeOf 2 t) [textNodeOf t] rfl]
    exact renderContentChildren_single_text t h
  have h1 : asObj (getKey (hNodeOf 2 t) "attrs".data)
      = some [("level".data, AVal.f 2)] := rfl
  have h2 : asFloat (lookup "level".data [("level".data, AVal.f 2)]) = some 2 := rfl
  simp only [renderHeading, h1, h2, hc]
  norm_num
  simp [repeatS]

/-- Evaluation of `ToMarkdown` on the level-2 heading document whose level
attribute is a float (the original document). -/
theorem ToMarkdown_h2float :
    ToMarkdown (docNodeOf [hNodeOf 2 "x".data]) = "## x".data := by
  have hcol1 : collapseNL "## x".data = "## x".data := by simp [collapseNL, repeatS]
  have hh : renderADFNode (hNodeOf 2 "x".data) 0 = "## x".data := by
    rw [renderADFNode_heading (hNodeOf 2 "x".data) 0 rfl,
      renderHeading_fLvl2 "x".data (by decide)]
  rw [ToMarkdown_single (hNodeOf 2 "x".data) rfl (by rw [hh]; decide), hh]
  simp only [NormalizeWhitespace, hcol1]
  decide

/-- Evaluation of `ToMarkdown` on the level-2 heading document whose level
attribute is a Go `int` (what the parser produces): the `float64` assertion
fails and the heading renders at level 1. -/
theorem ToMarkdown_h2int :
    ToMarkdown (docNodeOf [hNodeOfI 2 "x".data]) = "# x".data := by
  have hcol2 : collapseNL "# x".data = "# x".data := by simp [collapseNL, repeatS]
  have hh : renderADFNode (hNodeOfI 2 "x".data) 0 = "# x".data := by
    rw [renderADFNode_heading (hNodeOfI 2 "x".data) 0 rfl,
      renderHeading_iLvl 2 "x".data (by decide)]
  rw [ToMarkdown_single (hNodeOfI 2 "x".data) rfl (by rw [hh]; decide), hh]
  simp only [NormalizeWhitespace, hcol2]
  decide

/-- C1: render is not idempotent across a parse.  `parseHeading` stores the
heading level as a Go `int`, while `renderHeading` reads it back with a
`float64` type assertion; the assertion fails on parsed documents and the
level falls back to 1, so a level-2 heading document renders as `## x`,
reparses, and then renders as `# x`.  The restricted idempotence that does
hold (final conjunct): for documents consisting of one paragraph of one
plain all-ASCII-letters text node, parse inverts render exactly, so
`render (parse (render d)) = render d`. -/
theorem C1_render_idempotence :
    (ToMarkdown (docNodeOf [hNodeOf 2 "x".data]) = "## x".data)
    ∧ (FromMarkdownF idStream 20 "## x".data = some (docNodeOf [hNodeOfI 2 "x".data]))
    ∧ (ToMarkdown (docNodeOf [hNodeOfI 2 "x".data]) = "# x".data)
    ∧ (ToMarkdown (docNodeOf [hNodeOfI 2 "x".data])
        ≠ ToMarkdown (docNodeOf [hNodeOf 2 "x".data]))
    ∧ (∀ (gen : Nat → Str) (f : Nat) (t : Str),
        t ≠ [] → t.all isAsciiLetter = true →
        ToMarkdown (docNodeOf [paraNodeOf t]) = t
        ∧ FromMarkdownF gen (f + 3) t = some (docNodeOf [paraNodeOf t])
        ∧ (∀ d2, FromMarkdownF gen (f + 3) (ToMarkdown (docNodeOf [paraNodeOf t]))
              = some d2 →
            ToMarkdown d2 = ToMarkdown (docNodeOf [paraNodeOf t]))) := by
  refine ⟨ToMarkdown_h2float, rfl, ToMarkdown_h2int, ?_, ?_⟩
  · rw [ToMarkdown_h2float, ToMarkdown_h2int]
    decide
  · intro gen f t hne hall
    have hl : ∀ c ∈ t, isAsciiLetter c = true := fun c hcm => by
      have := List.all_eq_true.mp hall c hcm
      simpa using this
    have hemp : t.isEmpty = false := by
      cases t with
      | nil => exact absurd rfl hne
      | cons c cs => rfl
    have hrender : ToMarkdown (docNodeOf [paraNodeOf t]) = t := by
      rw [ToMarkdown_single (paraNodeOf t) rfl
        (by rw [renderParagraph_plain t hemp]; exact hemp),
        renderParagraph_plain t hemp]
      exact NormalizeWhitespace_letters t hl
    have hparse := FromMarkdownF_letters gen f t hne hl
    refine ⟨hrender, hparse, ?_⟩
    intro d2 h2
    rw [hrender] at h2
    rw [hparse] at h2
    injection h2 with h3
    rw [← h3, hrender]

theorem C1_render_idempotence_witness :
    ("hello".data ≠ [] ∧ "hello".data.all isAsciiLetter = true)
    ∧ ToMarkdown (docNodeOf [paraNodeOf "hello".data]) = "hello".data
    ∧ FromMarkdownF idStream 3 "hello".data
        = some (docNodeOf [paraNodeOf "hello".data]) :=
  ⟨⟨by decide, by decide⟩,
   (C1_render_idempotence.2.2.2.2 idStream 0 "hello".data (by decide) (by decide)).1,
   (C1_render_idempotence.2.2.2.2 idStream 0 "hello".data (by decide) (by decide)).2.1⟩

/-- C1 counterexample: the float-level heading document renders as `## x`,
parses back to the int-level document, which renders as `# x`, so
`render (parse (render d)) ≠ render d`. -/
theorem C1_counterexample :
    ToMarkdown (docNodeOf [hNodeOf 2 "x".data]) = "## x".data
    ∧ FromMarkdownF idStream 20 "## x".data = some (docNodeOf [hNodeOfI 2 "x".data])
    ∧ ToMarkdown (docNodeOf [hNodeOfI 2 "x".data]) = "# x".data
    ∧ ToMarkdown (docNodeOf [hNodeOfI 2 "x".data])
        ≠ ToMarkdown (docNodeOf [hNodeOf 2 "x".data]) :=
  ⟨ToMarkdown_h2float, rfl, ToMarkdown_h2int, by
    rw [ToMarkdown_h2float, ToMarkdown_h2int]
    decide⟩

/-- C3 counterexample: ten hashes do not clamp to a level-6 heading, and
`#x` does not become a paragraph; both lines are dropped at parse time and
yield a document with no content. -/
theorem C3_counterexample :
    FromMarkdownF idStream 20 "########## x".data = some emptyDocNode
    ∧ FromMarkdownF idStream 20 "#x".data = some emptyDocNode :=
  ⟨rfl, rfl⟩

/-- C5 counterexample: `| a---b | c |` has cells that are not dash-only yet
is stripped (the line contains `---`), while `| -- | -- |` has all-dash
cells yet is kept as a header row. -/
theorem C5_counterexample :
    (cellsAllDash "| a---b | c |".data = false
      ∧ parseTableF idStream 5 ["| a---b | c |".data, "| d | e |".data] 0 0
          = some (some (tableNodeOf [rowNodeOf [cellNodeOf "tableHeader".data "d".data,
              cellNodeOf "tableHeader".data "e".data]]), 2, 0))
    ∧ (cellsAllDash "| -- | -- |".data = true
      ∧ parseTableF idStream 5 ["| -- | -- |".data] 0 0
          = some (some (tableNodeOf [rowNodeOf [cellNodeOf "tableHeader".data "--".data,
              cellNodeOf "tableHeader".data "--".data]]), 1, 0)) :=
  ⟨⟨by decide, rfl⟩, ⟨by decide, rfl⟩⟩

/-- C8 counterexample: the rendered output of `d8node` contains a run of
three newline characters. -/
theorem C8_counterexample :
    containsSub "\n\n\n".data (ToMarkdown d8node) = true := by
  rw [ToMarkdown_d8]
  decide

end ADF
